import Mathlib

/-!
# Verification of the DTCG design-token validator

A shallow embedding of `src/lib/dtcgValidator.js` (W3C Design Tokens
Community Group validator).  JavaScript values are modelled by `JValue`
(numbers as rationals, objects as ordered field lists), the token registry
as an association list with JS-`Map` "last write wins" lookup, and the
reference resolver through a fuel-indexed helper together with a proof that
the fuel `registrySize + 1` always suffices.  Each validator function of the
source is translated one-to-one; error and warning messages are reproduced
verbatim.
-/

namespace DTCG

/-- A JSON/JavaScript value as handled by the validator.  Numbers are
modelled as rationals (`ℚ`); objects keep their fields in insertion order,
as JavaScript `Object.entries` does for the string keys produced by
`JSON.parse` on token documents. -/
inductive JValue where
  | null
  | bool (b : Bool)
  | num (q : ℚ)
  | str (s : String)
  | arr (elems : List JValue)
  | obj (fields : List (String × JValue))
deriving Repr

/-- JavaScript truthiness of a value (`NaN` is not representable in `ℚ` and
does not occur in the documents under study). -/
def truthy : JValue → Bool
  | .null => false
  | .bool b => b
  | .num q => decide (q ≠ 0)
  | .str s => !s.isEmpty
  | .arr _ => true
  | .obj _ => true

/-- Truthiness of an optional value; an absent field (`undefined`) is falsy. -/
def truthyOpt : Option JValue → Bool
  | none => false
  | some v => truthy v

/-- JavaScript `a || b` on possibly-absent values (used for
`value.$type || parentType`). -/
def jsOrOpt (a b : Option JValue) : Option JValue :=
  if truthyOpt a then a else b

/-- Field lookup on an object (`value.f` / `'f' in value`).  Arrays and
primitives have no named properties.  Documents produced by `JSON.parse`
have unique keys within one object. -/
def getField (v : JValue) (k : String) : Option JValue :=
  match v with
  | .obj fields => (fields.find? (fun e => e.1 = k)).map Prod.snd
  | _ => none

/-- JavaScript `'k' in value`. -/
def hasField (v : JValue) (k : String) : Bool :=
  (getField v k).isSome

/-- `value && typeof value === 'object'`: objects and arrays, not `null`. -/
def jsObjectLike : JValue → Bool
  | .obj _ => true
  | .arr _ => true
  | _ => false

/-- `typeof v === 'object' && v !== null && !Array.isArray(v)`. -/
def isPlainObject : JValue → Bool
  | .obj _ => true
  | _ => false

/-- `key.startsWith('$')`, written on the character list so that it reduces
in the kernel. -/
def keyStartsDollar (s : String) : Bool :=
  match s.data with
  | '$' :: _ => true
  | _ => false

/-- The regex `/[{}."]/` of the token-name check. -/
def hasInvalidNameChar (s : String) : Bool :=
  s.data.any (fun c => c = '{' || c = '}' || c = '.' || c = '"')

/-- Hex digit, as in the character class `[0-9a-fA-F]`. -/
def isHexDigit (c : Char) : Bool :=
  c.isDigit || ('a' ≤ c && c ≤ 'f') || ('A' ≤ c && c ≤ 'F')

/-- The regex `/^#[0-9a-fA-F]{6}$/`. -/
def isHex6 (s : String) : Bool :=
  match s.data with
  | '#' :: rest => rest.length = 6 && rest.all isHexDigit
  | _ => false

/-- The regex `/^\{.+\}$/` (`.` does not match a newline): an opening brace,
at least one character, a closing brace. -/
def isRefString (s : String) : Bool :=
  match s.data with
  | '{' :: c :: rest =>
      match rest.getLast? with
      | some last =>
          last = '}' && ((c :: rest).dropLast.all (fun ch => ch ≠ '\n'))
      | none => false
  | _ => false

/-- `isReference`: a string value matching the `{path}` syntax
(`src/lib/dtcgValidator.js:458`). -/
def isReference : JValue → Bool
  | .str s => isRefString s
  | _ => false

/-- `reference.replace(/^\{|\}$/g, '')`: drop one leading `{` and one
trailing `}` when present (`src/lib/dtcgValidator.js:466`). -/
def extractReferencePath (s : String) : String :=
  let cs := s.data
  let cs := match cs with
    | '{' :: rest => rest
    | other => other
  let cs := match cs.getLast? with
    | some '}' => cs.dropLast
    | _ => cs
  String.mk cs

/-- `-?\d+(\.\d+)?` : the numeric part of the dimension regex. -/
def numChars (cs : List Char) : Option (List Char) :=
  let cs := match cs with
    | '-' :: rest => rest
    | other => other
  let intPart := cs.takeWhile Char.isDigit
  let rest := cs.drop intPart.length
  if intPart.isEmpty then none
  else match rest with
    | '.' :: rest2 =>
        let frac := rest2.takeWhile Char.isDigit
        if frac.isEmpty then none else some (rest2.drop frac.length)
    | other => some other

/-- The regex `/^-?\d+(\.\d+)?(px|rem)$/`. -/
def isDimensionString (s : String) : Bool :=
  match numChars s.data with
  | some ['p', 'x'] => true
  | some ['r', 'e', 'm'] => true
  | _ => false

/-- Rendering of a rational for template-literal interpolation.  Exact for
integers, which are the only numbers the validator ever interpolates (the
bounds of the color-space table). -/
def ratToString (q : ℚ) : String :=
  if q.den = 1 then toString q.num
  else toString q.num ++ "/" ++ toString q.den

/-- JavaScript string coercion `${v}` for the values that can appear in
interpolated error messages. -/
def jsDisplay : JValue → String
  | .null => "null"
  | .bool b => if b then "true" else "false"
  | .num q => ratToString q
  | .str s => s
  | .arr elems => goL elems
  | .obj _ => "[object Object]"
where
  goL : List JValue → String
  | [] => ""
  | [v] => jsDisplay v
  | v :: rest => jsDisplay v ++ "," ++ goL rest

/-- `${type}` on a possibly-absent value (absent prints as `undefined`,
which cannot actually reach a message in the source). -/
def jsDisplayOpt : Option JValue → String
  | none => "undefined"
  | some v => jsDisplay v

/-- Valid token types (`VALID_TOKEN_TYPES`). -/
def VALID_TOKEN_TYPES : List String :=
  ["color", "dimension", "fontFamily", "fontWeight", "duration",
   "cubicBezier", "number", "strokeStyle", "border", "transition",
   "shadow", "gradient", "typography"]

/-- Font weight string aliases (`FONT_WEIGHT_ALIASES`); only key membership
is consulted by the validator. -/
def FONT_WEIGHT_ALIASES : List (String × Nat) :=
  [("thin", 100), ("hairline", 100), ("extra-light", 200),
   ("ultra-light", 200), ("light", 300), ("normal", 400), ("regular", 400),
   ("book", 400), ("medium", 500), ("semi-bold", 600), ("demi-bold", 600),
   ("bold", 700), ("extra-bold", 800), ("ultra-bold", 800), ("black", 900),
   ("heavy", 900), ("extra-black", 950), ("ultra-black", 950)]

/-- Valid stroke style values (`STROKE_STYLE_VALUES`). -/
def STROKE_STYLE_VALUES : List String :=
  ["solid", "dashed", "dotted", "double", "groove", "ridge", "outset",
   "inset"]

/-- One bound of a color-component range; the table uses `±Infinity` for
unbounded components. -/
inductive EBound where
  | negInf
  | fin (q : ℚ)
  | posInf
deriving Repr

/-- Entry of the color-space table: component count and per-index ranges. -/
structure ColorSpaceInfo where
  components : Nat
  ranges : List (EBound × EBound)
deriving Repr

/-- The `COLOR_SPACES` table, in source order. -/
def COLOR_SPACES : List (String × ColorSpaceInfo) :=
  let unit : EBound × EBound := (.fin 0, .fin 1)
  let pct : EBound × EBound := (.fin 0, .fin 100)
  let hue : EBound × EBound := (.fin 0, .fin 360)
  let free : EBound × EBound := (.negInf, .posInf)
  let pos : EBound × EBound := (.fin 0, .posInf)
  [("srgb", ⟨3, [unit, unit, unit]⟩),
   ("srgb-linear", ⟨3, [unit, unit, unit]⟩),
   ("hsl", ⟨3, [hue, pct, pct]⟩),
   ("hwb", ⟨3, [hue, pct, pct]⟩),
   ("lab", ⟨3, [pct, free, free]⟩),
   ("lch", ⟨3, [pct, pos, hue]⟩),
   ("oklab", ⟨3, [unit, free, free]⟩),
   ("oklch", ⟨3, [unit, pos, hue]⟩),
   ("display-p3", ⟨3, [unit, unit, unit]⟩),
   ("a98-rgb", ⟨3, [unit, unit, unit]⟩),
   ("prophoto-rgb", ⟨3, [unit, unit, unit]⟩),
   ("rec2020", ⟨3, [unit, unit, unit]⟩),
   ("xyz-d65", ⟨3, [free, free, free]⟩),
   ("xyz-d50", ⟨3, [free, free, free]⟩)]

/-- `COLOR_SPACES[value.colorSpace]`: lookup succeeds only for a string key
present in the table (no non-string coerces to a table key). -/
def lookupColorSpace (v : JValue) : Option ColorSpaceInfo :=
  match v with
  | .str s => (COLOR_SPACES.find? (fun e => e.1 = s)).map Prod.snd
  | _ => none

/-- `Object.keys(COLOR_SPACES).join(', ')`. -/
def colorSpaceNames : String :=
  String.intercalate ", " (COLOR_SPACES.map Prod.fst)

/-- Whether component `idx` of color space `cs` is a hue component
(index 0 for hsl/hwb, index 2 for lch/oklch). -/
def isHueComponent (cs : String) (idx : Nat) : Bool :=
  (cs = "hsl" && idx = 0) || (cs = "hwb" && idx = 0) ||
  (cs = "lch" && idx = 2) || (cs = "oklch" && idx = 2)

/-- The body of the `components.forEach` loop of `validateColorValue`:
errors contributed by one component. -/
def checkComponent (cs : String) (info : ColorSpaceInfo) (path : String)
    (idx : Nat) (component : JValue) : List String :=
  match component with
  | .str "none" => []
  | .num c =>
      let (mn, mx) := info.ranges.getD idx (.negInf, .posInf)
      if isHueComponent cs idx then
        if c < 0 ∨ c ≥ 360 then
          ["Color hue component at " ++ path ++ ".components[" ++
            toString idx ++ "] must be >= 0 and < 360"]
        else []
      else
        match mn, mx with
        | .fin a, .fin b =>
            if c < a ∨ c > b then
              ["Color component at " ++ path ++ ".components[" ++
                toString idx ++ "] must be between " ++ ratToString a ++
                " and " ++ ratToString b]
            else []
        | .fin a, .posInf =>
            if c < a then
              ["Color component at " ++ path ++ ".components[" ++
                toString idx ++ "] must be >= " ++ ratToString a]
            else []
        | _, _ => []
  | _ =>
      ["Color component at " ++ path ++ ".components[" ++ toString idx ++
        "] must be a number or \"none\""]

/-- Errors of all components in index order. -/
def checkComponents (cs : String) (info : ColorSpaceInfo) (path : String) :
    Nat → List JValue → List String
  | _, [] => []
  | idx, c :: rest =>
      checkComponent cs info path idx c ++ checkComponents cs info path (idx + 1) rest

/-- The optional `hex` property check of `validateColorValue`. -/
def checkHexProp (v : JValue) (path : String) : List String :=
  match getField v "hex" with
  | none => []
  | some (.str h) =>
      if !isHex6 h then
        ["Color hex property at " ++ path ++
          " must be 6-digit hex format (#rrggbb)"]
      else []
  | some _ => ["Color hex property at " ++ path ++ " must be a string"]

/-- The optional `alpha` property check of `validateColorValue`. -/
def checkAlphaProp (v : JValue) (path : String) : List String :=
  match getField v "alpha" with
  | none => []
  | some (.num a) =>
      if a < 0 ∨ a > 1 then
        ["Color alpha property at " ++ path ++ " must be between 0 and 1"]
      else []
  | some _ => ["Color alpha property at " ++ path ++ " must be a number"]

/-- `validateColorValue` (`src/lib/dtcgValidator.js:129`); returns the
pushed `(errors, warnings)`. -/
def validateColorValue (value : JValue) (path : String) :
    List String × List String :=
  match value with
  | .str s =>
      if !isHex6 s && !isRefString s then
        ([], ["Color at " ++ path ++
          " should be in 6-digit hex format (#rrggbb) or a reference"])
      else ([], [])
  | .null => (["Color at " ++ path ++ " must be a string or object"], [])
  | .obj _ => colorObjectCase value path
  | .arr _ => colorObjectCase value path
  | _ => (["Color at " ++ path ++ " must be a string or object"], [])
where
  /-- The `typeof value === 'object' && value !== null` branch (arrays reach
  it too and fail the `colorSpace` check, having no named fields). -/
  colorObjectCase (value : JValue) (path : String) :
      List String × List String :=
    let csField := getField value "colorSpace"
    if !truthyOpt csField then
      (["Color object at " ++ path ++ " must have colorSpace property"], [])
    else
      match lookupColorSpace ((csField).getD .null) with
      | none =>
          (["Color at " ++ path ++ " has unsupported colorSpace \"" ++
            jsDisplayOpt csField ++ "\". Supported: " ++ colorSpaceNames], [])
      | some info =>
          let csName := match csField with
            | some (.str s) => s
            | _ => ""
          match getField value "components" with
          | some (.arr comps) =>
              if comps.length ≠ info.components then
                (["Color object at " ++ path ++
                  " must have components array with exactly " ++
                  toString info.components ++ " values"], [])
              else
                (checkComponents csName info path 0 comps ++
                  checkHexProp value path ++ checkAlphaProp value path, [])
          | _ =>
              (["Color object at " ++ path ++ " must have components array"],
                [])

/-- `validateDimensionValue` (`src/lib/dtcgValidator.js:226`). -/
def validateDimensionValue (value : JValue) (path : String) : List String :=
  match value with
  | .str s =>
      if !isDimensionString s && !isRefString s then
        ["Dimension at " ++ path ++
          " must be a number with unit \"px\" or \"rem\" (e.g., \"16px\", \"1rem\") or a reference"]
      else []
  | .num _ => []
  | .obj _ => dimObjectCase value path
  | .arr _ => dimObjectCase value path
  | _ =>
      ["Dimension at " ++ path ++
        " must be a number, string with unit, or object with value/unit properties"]
where
  dimObjectCase (value : JValue) (path : String) : List String :=
    (match getField value "value" with
     | some (.num _) => []
     | _ => ["Dimension object at " ++ path ++
         " must have numeric value property"]) ++
    (match getField value "unit" with
     | some (.str "px") => []
     | some (.str "rem") => []
     | _ => ["Dimension unit at " ++ path ++ " must be \"px\" or \"rem\""])

/-- `validateDurationValue` (`src/lib/dtcgValidator.js:249`). -/
def validateDurationValue (value : JValue) (path : String) : List String :=
  match value with
  | .obj _ =>
      (match getField value "value" with
       | some (.num _) => []
       | _ => ["Duration object at " ++ path ++
           " must have numeric value property"]) ++
      (match getField value "unit" with
       | some (.str "ms") => []
       | some (.str "s") => []
       | _ => ["Duration unit at " ++ path ++ " must be \"ms\" or \"s\""])
  | _ =>
      ["Duration at " ++ path ++
        " must be an object with value and unit properties"]

/-- The per-element check of the `cubicBezier` validator. -/
def bezierElemErrors (path : String) : Nat → List JValue → List String
  | _, [] => []
  | idx, v :: rest =>
      (match v with
       | .num _ => []
       | _ => ["cubicBezier at " ++ path ++ "[" ++ toString idx ++
           "] must be a number"]) ++
      bezierElemErrors path (idx + 1) rest

/-- `validateCubicBezierValue` (`src/lib/dtcgValidator.js:267`). -/
def validateCubicBezierValue (value : JValue) (path : String) : List String :=
  match value with
  | .arr elems =>
      if elems.length ≠ 4 then
        ["cubicBezier at " ++ path ++ " must be an array of exactly 4 numbers"]
      else
        bezierElemErrors path 0 elems ++
        (match elems.getD 0 .null with
         | .num x => if x < 0 ∨ x > 1 then
             ["cubicBezier at " ++ path ++ "[0] (P1x) must be in range [0, 1]"]
           else []
         | _ => []) ++
        (match elems.getD 2 .null with
         | .num x => if x < 0 ∨ x > 1 then
             ["cubicBezier at " ++ path ++ "[2] (P2x) must be in range [0, 1]"]
           else []
         | _ => [])
  | _ =>
      ["cubicBezier at " ++ path ++ " must be an array of exactly 4 numbers"]

/-- `validateStrokeStyleValue` (`src/lib/dtcgValidator.js:292`). -/
def validateStrokeStyleValue (value : JValue) (path : String) : List String :=
  match value with
  | .str s =>
      if !STROKE_STYLE_VALUES.contains s then
        ["strokeStyle at " ++ path ++ " must be one of: " ++
          String.intercalate ", " STROKE_STYLE_VALUES]
      else []
  | .obj _ => strokeObjectCase value path
  | .arr _ => strokeObjectCase value path
  | _ => ["strokeStyle at " ++ path ++ " must be a string or object"]
where
  strokeObjectCase (value : JValue) (path : String) : List String :=
    (if !truthyOpt (getField value "dashArray") then
       ["strokeStyle object at " ++ path ++ " must have dashArray property"]
     else match getField value "dashArray" with
       | some (.arr _) => []
       | _ => ["strokeStyle dashArray at " ++ path ++ " must be an array"]) ++
    (if !truthyOpt (getField value "lineCap") then
       ["strokeStyle object at " ++ path ++ " must have lineCap property"]
     else match getField value "lineCap" with
       | some (.str "round") => []
       | some (.str "butt") => []
       | some (.str "square") => []
       | _ => ["strokeStyle lineCap at " ++ path ++
           " must be \"round\", \"butt\", or \"square\""])

/-- `validateBorderValue` (`src/lib/dtcgValidator.js:319`). -/
def validateBorderValue (value : JValue) (path : String) : List String :=
  if !jsObjectLike value then
    ["Border at " ++ path ++ " must be an object"]
  else
    (if !truthyOpt (getField value "color") then
       ["Border at " ++ path ++ " must have color property"] else []) ++
    (if !truthyOpt (getField value "width") then
       ["Border at " ++ path ++ " must have width property"] else []) ++
    (if !truthyOpt (getField value "style") then
       ["Border at " ++ path ++ " must have style property"] else [])

/-- `validateTransitionValue` (`src/lib/dtcgValidator.js:342`). -/
def validateTransitionValue (value : JValue) (path : String) : List String :=
  if !jsObjectLike value then
    ["Transition at " ++ path ++ " must be an object"]
  else
    (if !truthyOpt (getField value "duration") then
       ["Transition at " ++ path ++ " must have duration property"] else []) ++
    (if !truthyOpt (getField value "delay") then
       ["Transition at " ++ path ++ " must have delay property"] else []) ++
    (if !truthyOpt (getField value "timingFunction") then
       ["Transition at " ++ path ++ " must have timingFunction property"]
     else [])

/-- `validateSingleShadow` inside `validateShadowValue`. -/
def validateSingleShadow (shadow : JValue) (shadowPath : String) :
    List String :=
  if !jsObjectLike shadow then
    ["Shadow at " ++ shadowPath ++ " must be an object"]
  else
    (["offsetX", "offsetY", "blur", "spread", "color"].filterMap fun field =>
      if !hasField shadow field then
        some ("Shadow at " ++ shadowPath ++ " is missing required field: " ++
          field)
      else none) ++
    (match getField shadow "inset" with
     | none => []
     | some (.bool _) => []
     | some _ => ["Shadow inset property at " ++ shadowPath ++
         " must be a boolean"])

/-- The per-element loop of the shadow-array case. -/
def shadowArrayErrors (path : String) : Nat → List JValue → List String
  | _, [] => []
  | idx, s :: rest =>
      validateSingleShadow s (path ++ "[" ++ toString idx ++ "]") ++
      shadowArrayErrors path (idx + 1) rest

/-- `validateShadowValue` (`src/lib/dtcgValidator.js:367`). -/
def validateShadowValue (value : JValue) (path : String) : List String :=
  match value with
  | .arr elems => shadowArrayErrors path 0 elems
  | _ => validateSingleShadow value path

/-- The per-stop loop of the gradient validator. -/
def gradientStopErrors (path : String) : Nat → List JValue → List String
  | _, [] => []
  | idx, stop :: rest =>
      (if !jsObjectLike stop then
         ["Gradient stop at " ++ path ++ "[" ++ toString idx ++
           "] must be an object"]
       else
         (if !hasField stop "color" then
            ["Gradient stop at " ++ path ++ "[" ++ toString idx ++
              "] must have color property"] else []) ++
         (if !hasField stop "position" then
            ["Gradient stop at " ++ path ++ "[" ++ toString idx ++
              "] must have position property"]
          else match getField stop "position" with
            | some (.num _) => []
            | _ => ["Gradient stop position at " ++ path ++ "[" ++
                toString idx ++ "] must be a number"])) ++
      gradientStopErrors path (idx + 1) rest

/-- `validateGradientValue` (`src/lib/dtcgValidator.js:403`). -/
def validateGradientValue (value : JValue) (path : String) : List String :=
  match value with
  | .arr elems => gradientStopErrors path 0 elems
  | _ => ["Gradient at " ++ path ++ " must be an array of gradient stops"]

/-- `Object.keys(value)` as strings: field names of an object, decimal
indices of an array. -/
def keysOf (v : JValue) : List String :=
  match v with
  | .obj fields => fields.map Prod.fst
  | .arr elems => (List.range elems.length).map toString
  | _ => []

/-- `validateTypographyValue` (`src/lib/dtcgValidator.js:431`). -/
def validateTypographyValue (value : JValue) (path : String) :
    List String × List String :=
  if !jsObjectLike value then
    (["Typography at " ++ path ++ " must be an object"], [])
  else
    let required := ["fontFamily", "fontSize", "fontWeight", "letterSpacing",
      "lineHeight"]
    (required.filterMap fun field =>
       if !hasField value field then
         some ("Typography at " ++ path ++ " is missing required field: " ++
           field)
       else none,
     (keysOf value).filterMap fun field =>
       if !required.contains field then
         some ("Typography at " ++ path ++ " has unknown field: " ++ field)
       else none)

/-- A registry record: `{...value, $type: tokenType, $path: currentPath}`.
Only the `$value` and effective `$type` fields are ever read downstream. -/
structure RegToken where
  value : JValue
  type : Option JValue
deriving Repr

/-- The token registry.  JavaScript uses a `Map`; we model it as an
append-only association list where the *last* binding of a key wins, which
gives the same `get` semantics as `Map.set`/`Map.get`. -/
abbrev Registry := List (String × RegToken)

/-- `registry.get(path)`: the most recently `set` binding. -/
def regGet : Registry → String → Option RegToken
  | [], _ => none
  | (k, t) :: rest, p =>
      match regGet rest p with
      | some r => some r
      | none => if k = p then some t else none

/-- `path ? `${path}.${key}` : key`. -/
def childPath (path key : String) : String :=
  if path = "" then key else path ++ "." ++ key

/-- `buildTokenRegistry` (`src/lib/dtcgValidator.js:474`): one pass over the
tree collecting every node that carries a `$value`, with the group `$type`
propagated (`value.$type || parentType`). -/
def buildTokenRegistry (v : JValue) (path : String) (reg : Registry)
    (parentType : Option JValue) : Registry :=
  match v with
  | .obj fields => goF fields path reg parentType
  | .arr elems => goE 0 elems path reg parentType
  | _ => reg
where
  goF : List (String × JValue) → String → Registry → Option JValue → Registry
  | [], _, reg, _ => reg
  | (key, value) :: rest, path, reg, pt =>
      goF rest path (goEntry key value path reg pt) pt
  goE : Nat → List JValue → String → Registry → Option JValue → Registry
  | _, [], _, reg, _ => reg
  | i, value :: rest, path, reg, pt =>
      goE (i + 1) rest path (goEntry (toString i) value path reg pt) pt
  /-- One iteration of the `for (const [key, value] of Object.entries(obj))`
  loop. -/
  goEntry (key : String) (value : JValue) (path : String) (reg : Registry)
      (pt : Option JValue) : Registry :=
    if keyStartsDollar key then reg
    else
      let currentPath := childPath path key
      match value with
      | .obj fields =>
          if hasField value "$value" then
            reg ++ [(currentPath,
              ⟨(getField value "$value").getD .null,
               jsOrOpt (getField value "$type") pt⟩)]
          else
            goF fields currentPath reg (jsOrOpt (getField value "$type") pt)
      | .arr elems =>
          goE 0 elems currentPath reg (jsOrOpt (getField value "$type") pt)
      | _ => reg

/-- Result of `resolveReference`: `{ value, type }` or `{ error }`. -/
inductive ResolveResult where
  | ok (value : JValue) (type : Option JValue)
  | err (msg : String)
deriving Repr

/-- `Array.from(visitedPaths).join(' → ')` (insertion order). -/
def joinArrow : List String → String
  | [] => ""
  | [p] => p
  | p :: rest => p ++ " → " ++ joinArrow rest

/-- The circular-reference error message. -/
def cycleMessage (visited : List String) (p : String) : String :=
  "Circular reference detected: " ++ joinArrow visited ++ " → " ++ p

/-- The missing-target error message. -/
def missingMessage (p : String) : String :=
  "Reference \"\x7b" ++ p ++ "\x7d\" points to non-existent token"

/-- Fuel-indexed version of `resolveReference`
(`src/lib/dtcgValidator.js:503`): the cycle check happens before the
registry lookup; on a reference value resolution recurses after adding the
current path to `visited`.  `none` means the fuel ran out; the development
proves this never happens for the fuel used by `resolveReference`. -/
def resolveFuel : Nat → String → Registry → List String →
    Option ResolveResult
  | 0, _, _, _ => none
  | fuel + 1, p, reg, visited =>
      if p ∈ visited then some (.err (cycleMessage visited p))
      else
        match regGet reg p with
        | none => some (.err (missingMessage p))
        | some token =>
            let visited' := visited ++ [p]
            match token.value with
            | .str s =>
                if isRefString s then
                  resolveFuel fuel (extractReferencePath s) reg visited'
                else some (.ok token.value token.type)
            | _ => some (.ok token.value token.type)

/-- Registry keys with duplicates removed: the size of the JavaScript `Map`. -/
def registryKeys (reg : Registry) : List String :=
  (reg.map Prod.fst).dedup

/-- Number of distinct registry paths — the JavaScript `Map` size. -/
def registrySize (reg : Registry) : Nat :=
  (registryKeys reg).length

/-- `resolveReference(referencePath, registry, visitedPaths = new Set())`.
Every recursive step of the source adds a fresh registry path to `visited`,
so `registrySize + 1` calls always suffice (proved below); the `getD`
default is unreachable. -/
def resolveReference (p : String) (reg : Registry)
    (visited : List String := []) : ResolveResult :=
  (resolveFuel (registrySize reg + 1) p reg visited).getD (.err "")

/-- `type && !VALID_TOKEN_TYPES.includes(type)` can only pass for a string
drawn from the table. -/
def isValidTokenType : Option JValue → Bool
  | some (.str s) => VALID_TOKEN_TYPES.contains s
  | _ => false

/-- The `switch (type)` body for a string scrutinee: a JavaScript `switch`
on a string is a chain of strict-equality tests against the case labels,
falling through to nothing when no label matches
(`src/lib/dtcgValidator.js:582`). -/
def dispatchByName (t : String) (value : JValue) (path : String) :
    List String × List String :=
  if t = "color" then validateColorValue value path
  else if t = "dimension" then (validateDimensionValue value path, [])
  else if t = "fontFamily" then
    (match value with
     | .str _ => []
     | .arr _ => []
     | _ => ["fontFamily at " ++ path ++ " must be a string or array"], [])
  else if t = "fontWeight" then
    (match value with
     | .num n =>
         if n < 1 ∨ n > 1000 then
           ["fontWeight at " ++ path ++ " must be a number between 1-1000"]
         else []
     | .str s =>
         if !(FONT_WEIGHT_ALIASES.map Prod.fst).contains s then
           ["fontWeight at " ++ path ++
             " must be a valid weight alias (e.g., \"bold\", \"normal\") or a number between 1-1000"]
         else []
     | _ => ["fontWeight at " ++ path ++ " must be a number or string"], [])
  else if t = "duration" then (validateDurationValue value path, [])
  else if t = "cubicBezier" then (validateCubicBezierValue value path, [])
  else if t = "number" then
    (match value with
     | .num _ => []
     | _ => ["number at " ++ path ++ " must be a number"], [])
  else if t = "strokeStyle" then (validateStrokeStyleValue value path, [])
  else if t = "border" then (validateBorderValue value path, [])
  else if t = "transition" then (validateTransitionValue value path, [])
  else if t = "shadow" then (validateShadowValue value path, [])
  else if t = "gradient" then (validateGradientValue value path, [])
  else if t = "typography" then validateTypographyValue value path
  else ([], [])

/-- The `switch (type)` dispatch of `validateTokenValue`: a non-string
`type` is strictly unequal to every case label. -/
def dispatchValidate (type : Option JValue) (value : JValue) (path : String) :
    List String × List String :=
  match type with
  | some (.str t) => dispatchByName t value path
  | _ => ([], [])

/-- The tail of `validateTokenValue` after reference resolution
(`src/lib/dtcgValidator.js:571-636`): unknown-`$type` warning, missing-type
error, then the type dispatch. -/
def validateResolvedValue (type : Option JValue) (value : JValue)
    (path : String) : List String × List String :=
  let unknownWarn :=
    if truthyOpt type && !isValidTokenType type then
      ["Unknown $type \"" ++ jsDisplayOpt type ++ "\" at " ++ path]
    else []
  if !truthyOpt type then
    (["Token at " ++ path ++
      " has no determinable type (no $type property or group type)"],
     unknownWarn)
  else
    let (es, ws) := dispatchValidate type value path
    (es, unknownWarn ++ ws)

/-- `validateTokenValue` (`src/lib/dtcgValidator.js:538`); the callers always
provide a registry, so the `registry = null` early-return branch of the
source is not taken. -/
def validateTokenValue (token : JValue) (path : String) (registry : Registry) :
    List String × List String :=
  let type := getField token "$type"
  if !hasField token "$value" then
    (["Token at " ++ path ++ " is missing $value"], [])
  else
    let value := (getField token "$value").getD .null
    match value with
    | .str s =>
        if isRefString s then
          match resolveReference (extractReferencePath s) registry with
          | .err e => ([e ++ " at " ++ path], [])
          | .ok v τ => validateResolvedValue (jsOrOpt type τ) v path
        else validateResolvedValue type value path
    | _ => validateResolvedValue type value path

/-- Concatenation of `(errors, warnings)` contributions in push order. -/
def pairAppend (a b : List String × List String) :
    List String × List String :=
  (a.1 ++ b.1, a.2 ++ b.2)

/-- `validateToken` (`src/lib/dtcgValidator.js:642`): the recursive tree
walk.  Note that the ambient `parentType` is threaded into groups but *not*
passed to `validateTokenValue`, exactly as in the source. -/
def validateToken (v : JValue) (path : String) (registry : Registry)
    (parentType : Option JValue) : List String × List String :=
  match v with
  | .obj fields => goF fields path registry parentType
  | .arr elems => goE 0 elems path registry parentType
  | _ => ([], [])
where
  goF : List (String × JValue) → String → Registry → Option JValue →
      List String × List String
  | [], _, _, _ => ([], [])
  | (key, value) :: rest, path, reg, pt =>
      pairAppend (goEntry key value path reg pt) (goF rest path reg pt)
  goE : Nat → List JValue → String → Registry → Option JValue →
      List String × List String
  | _, [], _, _, _ => ([], [])
  | i, value :: rest, path, reg, pt =>
      pairAppend (goEntry (toString i) value path reg pt)
        (goE (i + 1) rest path reg pt)
  goEntry (key : String) (value : JValue) (path : String) (reg : Registry)
      (pt : Option JValue) : List String × List String :=
    if keyStartsDollar key then ([], [])
    else
      let currentPath := childPath path key
      let nameErrs :=
        if hasInvalidNameChar key then
          ["Token name \"" ++ key ++ "\" at " ++ currentPath ++
            " contains invalid characters ({, }, ., or \")"]
        else []
      let body :=
        match value with
        | .obj fields =>
            if hasField value "$value" then
              validateTokenValue value currentPath reg
            else if hasField value "$type" &&
                ((keysOf value).filter (fun k => !keyStartsDollar k)).isEmpty
              then
              (["Token at " ++ currentPath ++ " is missing $value"], [])
            else
              goF fields currentPath reg (jsOrOpt (getField value "$type") pt)
        | .arr elems =>
            goE 0 elems currentPath reg (jsOrOpt (getField value "$type") pt)
        | _ => ([], [])
      pairAppend (nameErrs, []) body

/-- `countTokens` (`src/lib/dtcgValidator.js:676`). -/
def countTokens (v : JValue) : Nat :=
  match v with
  | .obj fields => goF fields
  | .arr elems => goE elems
  | _ => 0
where
  goF : List (String × JValue) → Nat
  | [] => 0
  | (key, value) :: rest => goItem key value + goF rest
  goE : List JValue → Nat
  | [] => 0
  | value :: rest => goItem "" value + goE rest
  goItem (key : String) (value : JValue) : Nat :=
    if keyStartsDollar key then 0
    else match value with
      | .obj fields => if hasField value "$value" then 1 else goF fields
      | .arr elems => goE elems
      | _ => 0

/-- `ValidationResult`: the early returns of the entry points carry *only*
`valid` and `errors`; `warnings`/`tokenCount` model the presence or absence
of those fields on the returned JavaScript object. -/
structure ValidationResult where
  valid : Bool
  errors : List String
  warnings : Option (List String)
  tokenCount : Option Nat
deriving Repr, DecidableEq

/-- The common full-validation path of both entry points: build the
registry, run the walk, report. -/
def validateParsed (tokens : JValue) : ValidationResult :=
  let registry := buildTokenRegistry tokens "" [] none
  let (errors, warnings) := validateToken tokens "" registry none
  { valid := errors.isEmpty
    errors := errors
    warnings := some warnings
    tokenCount := some (countTokens tokens) }

/-- `validateTokensObject` (`src/lib/dtcgValidator.js:731`). -/
def validateTokensObject (tokens : JValue) : ValidationResult :=
  if !truthy tokens then
    { valid := false, errors := ["Input is empty"],
      warnings := none, tokenCount := none }
  else if !isPlainObject tokens then
    { valid := false, errors := ["Root must be an object"],
      warnings := none, tokenCount := none }
  else validateParsed tokens

/-- `validateTokens` (`src/lib/dtcgValidator.js:693`).  The input is an
arbitrary JavaScript value (the guard rejects non-strings); `JSON.parse` is
external to the repository, so its outcome on the string is passed as the
`parsed` argument (`Except.error m` models a thrown `SyntaxError` with
message `m`).  Nothing after the parse throws, so the `try` wraps only it. -/
def validateTokens (input : JValue) (parsed : Except String JValue) :
    ValidationResult :=
  match input with
  | .str s =>
      if s.data.all Char.isWhitespace then
        { valid := false, errors := ["Input is empty"],
          warnings := none, tokenCount := none }
      else
        match parsed with
        | .error m =>
            { valid := false, errors := ["Invalid JSON: " ++ m],
              warnings := none, tokenCount := none }
        | .ok tokens =>
            if !isPlainObject tokens then
              { valid := false, errors := ["Root must be an object"],
                warnings := none, tokenCount := none }
            else validateParsed tokens
  | _ =>
      { valid := false, errors := ["Input is empty"],
        warnings := none, tokenCount := none }

/-! ## Auxiliary notions used to state the claims -/

/-- Substring containment, used to state "the message contains the literal
substring …". -/
def containsSub (hay sub : String) : Bool :=
  go hay.data
where
  go : List Char → Bool
  | [] => sub.data.isPrefixOf []
  | c :: rest => sub.data.isPrefixOf (c :: rest) || go rest

/-- The registry keys not yet visited: the quantity each recursive step of
`resolveReference` strictly shrinks. -/
def unvisitedKeys (reg : Registry) (visited : List String) : List String :=
  (registryKeys reg).filter (fun k => !(visited.contains k))

/-- Spec-side notion "the document contains no tokens": no node anywhere in
the tree carries a `$value` field. -/
def tokenFree (v : JValue) : Bool :=
  match v with
  | .obj fields => !(hasField v "$value") && goF fields
  | .arr elems => goE elems
  | _ => true
where
  goF : List (String × JValue) → Bool
  | [] => true
  | (_, v) :: rest => tokenFree v && goF rest
  goE : List JValue → Bool
  | [] => true
  | v :: rest => tokenFree v && goE rest

/-- Spec-side cleanliness of a token-free tree along the walker's traversal:
every non-`$` key is free of the characters `{`, `}`, `.`, `"`, and no
object node consists of a `$type` with no non-`$` children. -/
def cleanTree (v : JValue) : Bool :=
  match v with
  | .obj fields => goF fields
  | .arr elems => goE 0 elems
  | _ => true
where
  goF : List (String × JValue) → Bool
  | [] => true
  | (k, v) :: rest => goKey k v && goF rest
  goE : Nat → List JValue → Bool
  | _, [] => true
  | i, v :: rest => goKey (toString i) v && goE (i + 1) rest
  goKey (k : String) (v : JValue) : Bool :=
    if keyStartsDollar k then true
    else
      !(hasInvalidNameChar k) &&
      (match v with
       | .obj fields =>
           !(hasField v "$type" &&
             ((keysOf v).filter (fun x => !keyStartsDollar x)).isEmpty) &&
           goF fields
       | .arr elems => goE 0 elems
       | _ => true)

/-- A reference cycle in a registry: a non-empty set of paths, each bound in
the registry to a token whose value is a reference to another path of the
set. -/
def isCycleSet (reg : Registry) (S : List (String × String)) : Bool :=
  !S.isEmpty && S.all fun pr =>
    (match regGet reg pr.1 with
     | some tok =>
         (match tok.value with
          | .str s => isRefString s && (extractReferencePath s == pr.2)
          | _ => false)
     | none => false) &&
    S.any (fun e => e.1 = pr.2)

/-- A reference chain in a registry: each listed path is bound to a token
whose value references the next path, and the last path is bound to a token
with a concrete (non-reference) value. -/
def refChainB (reg : Registry) : List String → Bool
  | [] => false
  | [p] =>
      match regGet reg p with
      | some tok => !(isReference tok.value)
      | none => false
  | p :: q :: rest =>
      (match regGet reg p with
       | some tok =>
           match tok.value with
           | .str s => isRefString s && (extractReferencePath s == q)
           | _ => false
       | none => false) &&
      refChainB reg (q :: rest)

/-- Simultaneous structural induction over a value, its field lists and its
element lists — the recursion pattern of the validator's tree walks. -/
def jvalueInduction (P : JValue → Prop) (PF : List (String × JValue) → Prop)
    (PE : List JValue → Prop)
    (hnull : P .null) (hbool : ∀ b, P (.bool b)) (hnum : ∀ q, P (.num q))
    (hstr : ∀ s, P (.str s))
    (harr : ∀ l, PE l → P (.arr l)) (hobj : ∀ l, PF l → P (.obj l))
    (hfnil : PF []) (hfcons : ∀ k v rest, P v → PF rest → PF ((k, v) :: rest))
    (henil : PE []) (hecons : ∀ v rest, P v → PE rest → PE (v :: rest)) :
    ∀ v, P v
  | .null => hnull
  | .bool b => hbool b
  | .num q => hnum q
  | .str s => hstr s
  | .arr l => harr l (goE l)
  | .obj l => hobj l (goF l)
where
  goF : ∀ l, PF l
  | [] => hfnil
  | (k, v) :: rest =>
      hfcons k v rest
        (jvalueInduction P PF PE hnull hbool hnum hstr harr hobj hfnil hfcons
          henil hecons v)
        (goF rest)
  goE : ∀ l, PE l
  | [] => henil
  | v :: rest =>
      hecons v rest
        (jvalueInduction P PF PE hnull hbool hnum hstr harr hobj hfnil hfcons
          henil hecons v)
        (goE rest)

/-- The three conclusions of `jvalueInduction` at once: for the value, the
field-list and the element-list motives. -/
def jvalueInductionAll (P : JValue → Prop) (PF : List (String × JValue) → Prop)
    (PE : List JValue → Prop)
    (hnull : P .null) (hbool : ∀ b, P (.bool b)) (hnum : ∀ q, P (.num q))
    (hstr : ∀ s, P (.str s))
    (harr : ∀ l, PE l → P (.arr l)) (hobj : ∀ l, PF l → P (.obj l))
    (hfnil : PF []) (hfcons : ∀ k v rest, P v → PF rest → PF ((k, v) :: rest))
    (henil : PE []) (hecons : ∀ v rest, P v → PE rest → PE (v :: rest)) :
    (∀ v, P v) ∧ (∀ l, PF l) ∧ (∀ l, PE l) :=
  ⟨jvalueInduction P PF PE hnull hbool hnum hstr harr hobj hfnil hfcons
     henil hecons,
   jvalueInduction.goF P PF PE hnull hbool hnum hstr harr hobj hfnil hfcons
     henil hecons,
   jvalueInduction.goE P PF PE hnull hbool hnum hstr harr hobj hfnil hfcons
     henil hecons⟩

/-! ## Concrete documents used as witnesses and counterexamples -/

/-- `{"a":{"$type":"color","$value":"{a}"}}` — a direct self-reference. -/
def docSelfRef : JValue :=
  .obj [("a", .obj [("$type", .str "color"), ("$value", .str "{a}")])]

/-- A two-token reference cycle `a → b → a`. -/
def docTwoCycle : JValue :=
  .obj [("a", .obj [("$type", .str "color"), ("$value", .str "{b}")]),
        ("b", .obj [("$type", .str "color"), ("$value", .str "{a}")])]

/-- `a → b → c` where only the leaf `c` declares `$type: "dimension"`. -/
def docChain : JValue :=
  .obj [("a", .obj [("$value", .str "{b}")]),
        ("b", .obj [("$value", .str "{c}")]),
        ("c", .obj [("$type", .str "dimension"), ("$value", .str "16px")])]

/-- `{"color":{"broken":{"$type":"color","$value":"{}"}}}` — the empty
reference body exercised by the repository's test
"should handle empty reference gracefully". -/
def docEmptyRef : JValue :=
  .obj [("color", .obj [("broken",
    .obj [("$type", .str "color"), ("$value", .str "{}")])])]

/-- `{"text":{"value":{"$type":"fontFamily","$value":"{incomplete"}}}`. -/
def docIncompleteRef : JValue :=
  .obj [("text", .obj [("value",
    .obj [("$type", .str "fontFamily"), ("$value", .str "\x7bincomplete")])])]

/-- `{"x":{"$type":"color"}}` — a token-free document (no `$value`
anywhere) that the walker nevertheless rejects. -/
def docTypeNoValue : JValue :=
  .obj [("x", .obj [("$type", .str "color")])]

/-- `{"a.b":{}}` — a token-free document with an illegal character in a
group name. -/
def docBadName : JValue :=
  .obj [("a.b", .obj [])]

/-! ## Theorems -/

/-- C5: the text entry point short-circuits in exactly three cases — empty
(non-string or whitespace-only) input, unparseable text, and a non-object
parsed root — and on every other input it runs the full traversal
(registry construction, tree walk, token count), with no further condition
aborting the run. -/
theorem validateTokens_short_circuits (input : JValue)
    (parsed : Except String JValue) :
    ((∀ s, input ≠ JValue.str s) →
      validateTokens input parsed =
        ⟨false, ["Input is empty"], none, none⟩) ∧
    (∀ s, input = JValue.str s → s.data.all Char.isWhitespace = true →
      validateTokens input parsed =
        ⟨false, ["Input is empty"], none, none⟩) ∧
    (∀ s m, input = JValue.str s → s.data.all Char.isWhitespace = false →
      parsed = .error m →
      validateTokens input parsed =
        ⟨false, ["Invalid JSON: " ++ m], none, none⟩) ∧
    (∀ s v, input = JValue.str s → s.data.all Char.isWhitespace = false →
      parsed = .ok v → isPlainObject v = false →
      validateTokens input parsed =
        ⟨false, ["Root must be an object"], none, none⟩) ∧
    (∀ s v, input = JValue.str s → s.data.all Char.isWhitespace = false →
      parsed = .ok v → isPlainObject v = true →
      validateTokens input parsed = validateParsed v ∧
      (validateTokens input parsed).warnings =
        some (validateToken v "" (buildTokenRegistry v "" [] none) none).2 ∧
      (validateTokens input parsed).tokenCount = some (countTokens v) ∧
      ((validateTokens input parsed).valid = true ↔
        (validateTokens input parsed).errors = [])) := by
  refine ⟨?_, ?_, ?_, ?_, ?_⟩
  · intro h
    cases input <;> simp [validateTokens]
    exact absurd rfl (h _)
  · rintro s rfl hws
    simp [validateTokens, hws]
  · rintro s m rfl hws rfl
    simp [validateTokens, hws]
  · rintro s v rfl hws rfl hobj
    simp [validateTokens, hws, hobj]
  · rintro s v rfl hws rfl hobj
    refine ⟨by simp [validateTokens, hws, hobj], ?_, ?_, ?_⟩ <;>
      simp [validateTokens, hws, hobj, validateParsed, List.isEmpty_iff]

/-- Witness for C5 at concrete inputs: an array root is rejected with the
bare `Root must be an object` result. -/
theorem validateTokens_short_circuits_witness :
    validateTokens (.str "[1]") (.ok (.arr [.num 1])) =
      ⟨false, ["Root must be an object"], none, none⟩ :=
  (validateTokens_short_circuits (.str "[1]")
    (.ok (.arr [.num 1]))).2.2.2.1 "[1]" (.arr [.num 1]) rfl (by decide)
    rfl (by decide)

/-- C10: the three short-circuit results of both entry points (empty input,
invalid JSON, non-object root) carry only `valid` and `errors`: the
`warnings` and `tokenCount` fields are absent (`none`), not present as an
empty list or zero. -/
theorem short_circuit_results_omit_fields (input tokens : JValue)
    (parsed : Except String JValue) :
    (truthy tokens = false →
      (validateTokensObject tokens).warnings = none ∧
      (validateTokensObject tokens).tokenCount = none) ∧
    (isPlainObject tokens = false →
      (validateTokensObject tokens).warnings = none ∧
      (validateTokensObject tokens).tokenCount = none) ∧
    ((∀ s, input ≠ JValue.str s) →
      (validateTokens input parsed).warnings = none ∧
      (validateTokens input parsed).tokenCount = none) ∧
    (∀ s, input = JValue.str s → s.data.all Char.isWhitespace = true →
      (validateTokens input parsed).warnings = none ∧
      (validateTokens input parsed).tokenCount = none) ∧
    (∀ s m, input = JValue.str s → parsed = .error m →
      (validateTokens input parsed).warnings = none ∧
      (validateTokens input parsed).tokenCount = none) ∧
    (∀ s v, input = JValue.str s → parsed = .ok v →
      isPlainObject v = false →
      (validateTokens input parsed).warnings = none ∧
      (validateTokens input parsed).tokenCount = none) := by
  refine ⟨?_, ?_, ?_, ?_, ?_, ?_⟩
  · intro h
    simp [validateTokensObject, h]
  · intro h
    by_cases ht : truthy tokens <;> simp [validateTokensObject, h, ht]
  · intro h
    cases input <;> simp [validateTokens]
    exact absurd rfl (h _)
  · rintro s rfl hws
    simp [validateTokens, hws]
  · rintro s m rfl rfl
    by_cases hws : s.data.all Char.isWhitespace <;>
      simp [validateTokens, hws]
  · rintro s v rfl rfl hobj
    by_cases hws : s.data.all Char.isWhitespace <;>
      simp [validateTokens, hws, hobj]

/-- Witness for C10: the invalid-JSON early return of the text entry point
omits both optional fields. -/
theorem short_circuit_results_omit_fields_witness :
    (validateTokens (.str "nope") (.error "Unexpected token")).warnings =
        none ∧
    (validateTokens (.str "nope") (.error "Unexpected token")).tokenCount =
        none :=
  (short_circuit_results_omit_fields (.str "nope") .null
    (.error "Unexpected token")).2.2.2.2.1 "nope" "Unexpected token" rfl rfl

/-- C3: for the hue-bearing color spaces — `hsl`/`hwb` at component index
0, `lch`/`oklch` at index 2 — a numeric hue component `h` yields a range
error exactly when `h < 0 ∨ h ≥ 360`, i.e. the half-open range `[0, 360)`
replaces the table's nominal closed `[0, 360]` column; the other components
keep their closed (or one-sided) table ranges.  Boundary cases: exactly
`360` is an error, `359.999` is accepted, `-0.001` is an error. -/
theorem hue_range_half_open (h s1 s2 : ℚ) (path : String) :
    ((validateColorValue (.obj [("colorSpace", .str "hsl"),
        ("components", .arr [.num h, .num s1, .num s2])]) path).1 =
      (if h < 0 ∨ h ≥ 360 then
        ["Color hue component at " ++ path ++
          ".components[0] must be >= 0 and < 360"] else []) ++
      (if s1 < 0 ∨ s1 > 100 then
        ["Color component at " ++ path ++
          ".components[1] must be between 0 and 100"] else []) ++
      (if s2 < 0 ∨ s2 > 100 then
        ["Color component at " ++ path ++
          ".components[2] must be between 0 and 100"] else [])) ∧
    ((validateColorValue (.obj [("colorSpace", .str "hwb"),
        ("components", .arr [.num h, .num s1, .num s2])]) path).1 =
      (if h < 0 ∨ h ≥ 360 then
        ["Color hue component at " ++ path ++
          ".components[0] must be >= 0 and < 360"] else []) ++
      (if s1 < 0 ∨ s1 > 100 then
        ["Color component at " ++ path ++
          ".components[1] must be between 0 and 100"] else []) ++
      (if s2 < 0 ∨ s2 > 100 then
        ["Color component at " ++ path ++
          ".components[2] must be between 0 and 100"] else [])) ∧
    ((validateColorValue (.obj [("colorSpace", .str "lch"),
        ("components", .arr [.num s1, .num s2, .num h])]) path).1 =
      (if s1 < 0 ∨ s1 > 100 then
        ["Color component at " ++ path ++
          ".components[0] must be between 0 and 100"] else []) ++
      (if s2 < 0 then
        ["Color component at " ++ path ++
          ".components[1] must be >= 0"] else []) ++
      (if h < 0 ∨ h ≥ 360 then
        ["Color hue component at " ++ path ++
          ".components[2] must be >= 0 and < 360"] else [])) ∧
    ((validateColorValue (.obj [("colorSpace", .str "oklch"),
        ("components", .arr [.num s1, .num s2, .num h])]) path).1 =
      (if s1 < 0 ∨ s1 > 1 then
        ["Color component at " ++ path ++
          ".components[0] must be between 0 and 1"] else []) ++
      (if s2 < 0 then
        ["Color component at " ++ path ++
          ".components[1] must be >= 0"] else []) ++
      (if h < 0 ∨ h ≥ 360 then
        ["Color hue component at " ++ path ++
          ".components[2] must be >= 0 and < 360"] else [])) ∧
    ((validateColorValue (.obj [("colorSpace", .str "hsl"),
        ("components", .arr [.num 360, .num 50, .num 50])]) path).1 =
      ["Color hue component at " ++ path ++
        ".components[0] must be >= 0 and < 360"]) ∧
    ((validateColorValue (.obj [("colorSpace", .str "hsl"),
        ("components", .arr [.num 359.999, .num 50, .num 50])]) path).1 =
      []) ∧
    ((validateColorValue (.obj [("colorSpace", .str "hsl"),
        ("components", .arr [.num (-0.001), .num 50, .num 50])]) path).1 =
      ["Color hue component at " ++ path ++
        ".components[0] must be >= 0 and < 360"]) := by
  have r0 : toString (0 : Nat) = "0" := by decide
  have r1 : toString (1 : Nat) = "1" := by decide
  have r2 : toString (2 : Nat) = "2" := by decide
  have q0 : ratToString (0 : ℚ) = "0" := by decide
  have q1 : ratToString (1 : ℚ) = "1" := by decide
  have q100 : ratToString (100 : ℚ) = "100" := by decide
  have e1 : ("hsl".isEmpty) = false := by decide
  have e2 : ("hwb".isEmpty) = false := by decide
  have e3 : ("lch".isEmpty) = false := by decide
  have e4 : ("oklch".isEmpty) = false := by decide
  have hsl_main : ∀ x y z : ℚ,
      ((validateColorValue (.obj [("colorSpace", .str "hsl"),
          ("components", .arr [.num x, .num y, .num z])]) path).1 =
        (if x < 0 ∨ x ≥ 360 then
          ["Color hue component at " ++ path ++
            ".components[0] must be >= 0 and < 360"] else []) ++
        (if y < 0 ∨ y > 100 then
          ["Color component at " ++ path ++
            ".components[1] must be between 0 and 100"] else []) ++
        (if z < 0 ∨ z > 100 then
          ["Color component at " ++ path ++
            ".components[2] must be between 0 and 100"] else [])) := by
    intro x y z
    simp [validateColorValue, validateColorValue.colorObjectCase, getField,
      lookupColorSpace, COLOR_SPACES, checkComponents, checkComponent,
      isHueComponent, checkHexProp, checkAlphaProp, truthyOpt, truthy,
      List.find?, r0, r1, r2, q0, q100, e1, String.append_assoc]
  refine ⟨hsl_main h s1 s2, ?_, ?_, ?_, ?_, ?_, ?_⟩
  · simp [validateColorValue, validateColorValue.colorObjectCase, getField,
      lookupColorSpace, COLOR_SPACES, checkComponents, checkComponent,
      isHueComponent, checkHexProp, checkAlphaProp, truthyOpt, truthy,
      List.find?, r0, r1, r2, q0, q100, e2, String.append_assoc]
  · simp [validateColorValue, validateColorValue.colorObjectCase, getField,
      lookupColorSpace, COLOR_SPACES, checkComponents, checkComponent,
      isHueComponent, checkHexProp, checkAlphaProp, truthyOpt, truthy,
      List.find?, r0, r1, r2, q0, q100, e3, String.append_assoc]
  · simp [validateColorValue, validateColorValue.colorObjectCase, getField,
      lookupColorSpace, COLOR_SPACES, checkComponents, checkComponent,
      isHueComponent, checkHexProp, checkAlphaProp, truthyOpt, truthy,
      List.find?, r0, r1, r2, q0, q1, q100, e4, String.append_assoc]
  · rw [hsl_main 360 50 50]
    norm_num
  · rw [hsl_main 359.999 50 50]
    norm_num
  · rw [hsl_main (-0.001) 50 50]
    norm_num

/-- A `colorSpace` string found in the table is non-empty. -/
theorem lookupColorSpace_key_ne_empty {cs : String} {info : ColorSpaceInfo}
    (h : lookupColorSpace (.str cs) = some info) : cs ≠ "" := by
  unfold lookupColorSpace at h
  rcases Option.map_eq_some'.mp h with ⟨e, he, -⟩
  have hp := List.find?_some he
  have hm := List.mem_of_find?_eq_some he
  have h1 : e.1 = cs := by simpa using hp
  subst h1
  fin_cases hm <;> decide

/-- C6: a color object with a recognized `colorSpace` whose `components`
array has the wrong length produces exactly the one arity error (mentioning
"components array with exactly N values") and nothing else — validation of
that color value stops at the arity check, so no component-level error can
accompany it. -/
theorem color_arity_mismatch_single_error (v : JValue) (cs path : String)
    (info : ColorSpaceInfo) (comps : List JValue)
    (hobj : isPlainObject v = true)
    (hcs : getField v "colorSpace" = some (.str cs))
    (hlook : lookupColorSpace (.str cs) = some info)
    (hcomps : getField v "components" = some (.arr comps))
    (hlen : comps.length ≠ info.components) :
    validateColorValue v path =
      (["Color object at " ++ path ++
        " must have components array with exactly " ++
        toString info.components ++ " values"], []) := by
  have hne : cs ≠ "" := lookupColorSpace_key_ne_empty hlook
  have hemp : cs.isEmpty = false := by
    simp only [Bool.eq_false_iff, ne_eq, String.isEmpty_iff]
    exact hne
  cases v
  case obj fields =>
    simp [validateColorValue, validateColorValue.colorObjectCase, hcs,
      hlook, hcomps, truthyOpt, truthy, hlen, hemp]
  all_goals simp [isPlainObject] at hobj

/-- Witness for C6: an `srgb` color with two components gets exactly the
arity error. -/
theorem color_arity_mismatch_single_error_witness :
    validateColorValue
      (.obj [("colorSpace", .str "srgb"),
             ("components", .arr [.num 1, .num 0])]) "c" =
      (["Color object at c must have components array with exactly 3 values"],
       []) :=
  color_arity_mismatch_single_error
    (.obj [("colorSpace", .str "srgb"), ("components", .arr [.num 1, .num 0])])
    "srgb" "c" ⟨3, [(.fin 0, .fin 1), (.fin 0, .fin 1), (.fin 0, .fin 1)]⟩
    [.num 1, .num 0] rfl rfl rfl rfl (by decide)

theorem dispatchValidate_unknown (t : String) (v : JValue) (path : String)
    (h : VALID_TOKEN_TYPES.contains t = false) :
    dispatchValidate (some (.str t)) v path = ([], []) := by
  simp [VALID_TOKEN_TYPES] at h
  obtain ⟨h1, h2, h3, h4, h5, h6, h7, h8, h9, h10, h11, h12, h13⟩ := h
  simp [dispatchValidate, dispatchByName, h1, h2, h3, h4, h5, h6, h7, h8,
    h9, h10, h11, h12, h13]

/-- C7: a token whose effective type is a (truthy) string outside the
thirteen recognized identifiers gets a warning `Unknown $type …` and no
error, and no type-specific validation runs: the first conjunct covers the
post-resolution tail for any such effective type, the second a whole token
with a non-reference `$value`. -/
theorem unknown_type_warns_only (token v : JValue) (t path : String)
    (reg : Registry)
    (hty : getField token "$type" = some (.str t))
    (hval : getField token "$value" = some v)
    (hnotref : isReference v = false)
    (ht0 : t ≠ "")
    (ht : VALID_TOKEN_TYPES.contains t = false) :
    validateResolvedValue (some (.str t)) v path =
      ([], ["Unknown $type \"" ++ t ++ "\" at " ++ path]) ∧
    validateTokenValue token path reg =
      ([], ["Unknown $type \"" ++ t ++ "\" at " ++ path]) := by
  have hemp : t.isEmpty = false := by
    simp only [Bool.eq_false_iff, ne_eq, String.isEmpty_iff]
    exact ht0
  have hd := dispatchValidate_unknown t v path ht
  have htm : t ∉ VALID_TOKEN_TYPES := by simpa using ht
  have hres : validateResolvedValue (some (.str t)) v path =
      ([], ["Unknown $type \"" ++ t ++ "\" at " ++ path]) := by
    simp [validateResolvedValue, truthyOpt, truthy, hemp, isValidTokenType,
      ht, htm, hd, jsDisplayOpt, jsDisplay]
  refine ⟨hres, ?_⟩
  cases v
  case str s =>
    have hs : isRefString s = false := by simpa [isReference] using hnotref
    simp [validateTokenValue, hty, hval, hasField, hs, hres]
  all_goals simp [validateTokenValue, hty, hval, hasField, hres]

/-- Witness for C7: a token with `$type: "colour"` produces only the
warning. -/
theorem unknown_type_warns_only_witness :
    validateTokenValue (.obj [("$type", .str "colour"),
      ("$value", .str "#ff0000")]) "p" [] =
      ([], ["Unknown $type \"colour\" at p"]) :=
  (unknown_type_warns_only
    (.obj [("$type", .str "colour"), ("$value", .str "#ff0000")])
    (.str "#ff0000") "colour" "p" [] rfl rfl rfl (by decide) (by decide)).2

theorem tokenFree_countTokens_zero :
    ∀ v, tokenFree v = true → countTokens v = 0 := by
  have main : ∀ w : JValue,
      ((∀ k, tokenFree w = true → countTokens.goItem k w = 0) ∧
       (tokenFree w = true → countTokens w = 0)) := by
    refine jvalueInduction _
      (fun l => tokenFree.goF l = true → countTokens.goF l = 0)
      (fun l => tokenFree.goE l = true → countTokens.goE l = 0)
      ?_ ?_ ?_ ?_ ?_ ?_ ?_ ?_ ?_ ?_
    · exact ⟨fun k _ => by simp [countTokens.goItem],
        fun _ => by simp [countTokens]⟩
    · exact fun b => ⟨fun k _ => by simp [countTokens.goItem],
        fun _ => by simp [countTokens]⟩
    · exact fun q => ⟨fun k _ => by simp [countTokens.goItem],
        fun _ => by simp [countTokens]⟩
    · exact fun s => ⟨fun k _ => by simp [countTokens.goItem],
        fun _ => by simp [countTokens]⟩
    · intro l ih
      refine ⟨?_, ?_⟩
      · intro k hf
        have h0 : countTokens.goE l = 0 := ih (by simpa [tokenFree] using hf)
        by_cases hk : keyStartsDollar k <;>
          simp [countTokens.goItem, hk, h0]
      · intro hf
        simpa [countTokens] using ih (by simpa [tokenFree] using hf)
    · intro l ih
      refine ⟨?_, ?_⟩
      · intro k hf
        simp [tokenFree] at hf
        have h0 : countTokens.goF l = 0 := ih hf.2
        by_cases hk : keyStartsDollar k <;>
          simp [countTokens.goItem, hk, hf.1, h0]
      · intro hf
        simp [tokenFree] at hf
        simpa [countTokens] using ih hf.2
    · intro _
      simp [countTokens.goF]
    · intro k v rest ihv ihrest h
      simp [tokenFree.goF] at h
      simp [countTokens.goF, ihv.1 k h.1, ihrest h.2]
    · intro _
      simp [countTokens.goE]
    · intro v rest ihv ihrest h
      simp [tokenFree.goE] at h
      simp [countTokens.goE, ihv.1 "" h.1, ihrest h.2]
  exact fun v => (main v).2

theorem tokenFree_clean_validateToken :
    ∀ v path reg pt, tokenFree v = true → cleanTree v = true →
      validateToken v path reg pt = ([], []) := by
  have main : ∀ w : JValue,
      ((∀ k path reg pt, tokenFree w = true → cleanTree.goKey k w = true →
          validateToken.goEntry k w path reg pt = ([], [])) ∧
       (∀ path reg pt, tokenFree w = true → cleanTree w = true →
          validateToken w path reg pt = ([], []))) := by
    refine jvalueInduction _
      (fun l => ∀ path reg pt, tokenFree.goF l = true →
        cleanTree.goF l = true →
        validateToken.goF l path reg pt = ([], []))
      (fun l => ∀ i path reg pt, tokenFree.goE l = true →
        cleanTree.goE i l = true →
        validateToken.goE i l path reg pt = ([], []))
      ?_ ?_ ?_ ?_ ?_ ?_ ?_ ?_ ?_ ?_
    · refine ⟨?_, ?_⟩
      · intro k path reg pt _ hc
        by_cases hk : keyStartsDollar k
        · simp [validateToken.goEntry, hk]
        · simp [cleanTree.goKey, hk] at hc
          simp [validateToken.goEntry, hk, hc, pairAppend]
      · intro path reg pt _ _
        simp [validateToken]
    · intro b
      refine ⟨?_, ?_⟩
      · intro k path reg pt _ hc
        by_cases hk : keyStartsDollar k
        · simp [validateToken.goEntry, hk]
        · simp [cleanTree.goKey, hk] at hc
          simp [validateToken.goEntry, hk, hc, pairAppend]
      · intro path reg pt _ _
        simp [validateToken]
    · intro q
      refine ⟨?_, ?_⟩
      · intro k path reg pt _ hc
        by_cases hk : keyStartsDollar k
        · simp [validateToken.goEntry, hk]
        · simp [cleanTree.goKey, hk] at hc
          simp [validateToken.goEntry, hk, hc, pairAppend]
      · intro path reg pt _ _
        simp [validateToken]
    · intro s
      refine ⟨?_, ?_⟩
      · intro k path reg pt _ hc
        by_cases hk : keyStartsDollar k
        · simp [validateToken.goEntry, hk]
        · simp [cleanTree.goKey, hk] at hc
          simp [validateToken.goEntry, hk, hc, pairAppend]
      · intro path reg pt _ _
        simp [validateToken]
    · intro l ih
      refine ⟨?_, ?_⟩
      · intro k path reg pt hf hc
        by_cases hk : keyStartsDollar k
        · simp [validateToken.goEntry, hk]
        · simp [cleanTree.goKey, hk] at hc
          have hf' : tokenFree.goE l = true := by simpa [tokenFree] using hf
          simp [validateToken.goEntry, hk, hc.1,
            ih 0 (childPath path k) reg
              (jsOrOpt (getField (.arr l) "$type") pt) hf' hc.2, pairAppend]
      · intro path reg pt hf hc
        have hf' : tokenFree.goE l = true := by simpa [tokenFree] using hf
        have hc' : cleanTree.goE 0 l = true := by simpa [cleanTree] using hc
        simpa [validateToken] using ih 0 path reg pt hf' hc'
    · intro l ih
      refine ⟨?_, ?_⟩
      · intro k path reg pt hf hc
        simp [tokenFree] at hf
        by_cases hk : keyStartsDollar k
        · simp [validateToken.goEntry, hk]
        · simp [cleanTree.goKey, hk] at hc
          simp [validateToken.goEntry, hk, hf.1, hc.1,
            ih (childPath path k) reg
              (jsOrOpt (getField (.obj l) "$type") pt) hf.2 hc.2.2,
            pairAppend]
          rcases hc.2.1 with h | h
          · intro hh
            rw [h] at hh
            cases hh
          · exact fun _ => h
      · intro path reg pt hf hc
        simp [tokenFree] at hf
        have hc' : cleanTree.goF l = true := by simpa [cleanTree] using hc
        simpa [validateToken] using ih path reg pt hf.2 hc'
    · intro path reg pt _ _
      simp [validateToken.goF]
    · intro k v rest ihv ihrest path reg pt hf hc
      simp [tokenFree.goF] at hf
      simp [cleanTree.goF] at hc
      simp [validateToken.goF, ihv.1 k path reg pt hf.1 hc.1,
        ihrest path reg pt hf.2 hc.2, pairAppend]
    · intro i path reg pt _ _
      simp [validateToken.goE]
    · intro v rest ihv ihrest i path reg pt hf hc
      simp [tokenFree.goE] at hf
      simp [cleanTree.goE] at hc
      simp [validateToken.goE, ihv.1 (toString i) path reg pt hf.1 hc.1,
        ihrest (i + 1) path reg pt hf.2 hc.2, pairAppend]
  exact fun v path reg pt hf hc => (main v).2 path reg pt hf hc

/-- C4 (amended): for every token-free document (no node carrying a
`$value` field) the token count is 0; and `valid == true` holds under the
additional, counterexample-forced conditions that no key contains one of
the characters `{`, `}`, `.`, `"` and no object node consists of a `$type`
with no non-`$` children. -/
theorem token_free_documents (v : JValue)
    (hobj : isPlainObject v = true)
    (hfree : tokenFree v = true) :
    (validateTokensObject v).tokenCount = some 0 ∧
    (cleanTree v = true →
      validateTokensObject v =
        { valid := true, errors := [], warnings := some [],
          tokenCount := some 0 }) := by
  cases v
  case obj fields =>
    constructor
    · simp [validateTokensObject, truthy, isPlainObject, validateParsed,
        tokenFree_countTokens_zero _ hfree]
    · intro hclean
      have hval := tokenFree_clean_validateToken (.obj fields) ""
        (buildTokenRegistry (.obj fields) "" [] none) none hfree hclean
      simp [validateTokensObject, truthy, isPlainObject, validateParsed,
        hval, tokenFree_countTokens_zero _ hfree]
  all_goals simp [isPlainObject] at hobj

/-- Witness for C4 (amended claim) at a concrete clean token-free
document. -/
theorem token_free_documents_witness :
    validateTokensObject (.obj [("g", .obj [])]) =
      { valid := true, errors := [], warnings := some [],
        tokenCount := some 0 } :=
  (token_free_documents (.obj [("g", .obj [])]) (by decide) (by decide)).2
    (by decide)

/-- C4 counterexample: two token-free documents (no `$value` field
anywhere, `countTokens == 0`) that the validator nevertheless rejects, so
"no tokens implies valid" is false as stated: a childless `$type`-carrying
node yields a missing-`$value` error, and an illegal character in a group
name yields a naming error. -/
theorem token_free_documents_counterexample :
    tokenFree docTypeNoValue = true ∧
    countTokens docTypeNoValue = 0 ∧
    (validateTokensObject docTypeNoValue).valid = false ∧
    (validateTokensObject docTypeNoValue).errors =
      ["Token at x is missing $value"] ∧
    tokenFree docBadName = true ∧
    countTokens docBadName = 0 ∧
    (validateTokensObject docBadName).valid = false := by
  decide

theorem length_filter_lt_of_witness {α : Type} (l : List α) (p q : α → Bool)
    (himp : ∀ a, q a = true → p a = true) (a : α) (ha : a ∈ l)
    (hpa : p a = true) (hqa : q a = false) :
    (l.filter q).length < (l.filter p).length := by
  induction l with
  | nil => cases ha
  | cons x xs ih =>
    rcases List.mem_cons.mp ha with rfl | hmem
    · have hmono : (xs.filter q).length ≤ (xs.filter p).length :=
        (List.monotone_filter_right xs himp).length_le
      rw [List.filter_cons, List.filter_cons, hpa, hqa]
      simpa using Nat.lt_succ_of_le hmono
    · rw [List.filter_cons, List.filter_cons]
      by_cases hq : q x = true
      · rw [hq, himp x hq]
        simpa using ih hmem
      · simp only [hq, if_false, Bool.false_eq_true]
        by_cases hp : p x = true
        · rw [hp]
          simp only [if_true, List.length_cons]
          exact Nat.lt_succ_of_lt (ih hmem)
        · simp only [hp, if_false, Bool.false_eq_true]
          exact ih hmem

theorem regGet_mem {reg : Registry} {p : String} {tok : RegToken}
    (h : regGet reg p = some tok) : p ∈ reg.map Prod.fst := by
  induction reg with
  | nil => simp [regGet] at h
  | cons e rest ih =>
    obtain ⟨k, t⟩ := e
    rw [regGet] at h
    cases hr : regGet rest p with
    | some r =>
        rw [hr] at h
        exact List.mem_cons_of_mem _ (ih (hr.trans h))
    | none =>
        rw [hr] at h
        by_cases hkp : k = p
        · simp [hkp]
        · simp [hkp] at h

theorem unvisitedKeys_le (reg : Registry) (visited : List String) :
    (unvisitedKeys reg visited).length ≤ registrySize reg :=
  List.length_filter_le _ _

theorem unvisitedKeys_decrease {reg : Registry} {visited : List String}
    {p : String} (hmem : p ∈ reg.map Prod.fst) (hnv : p ∉ visited) :
    (unvisitedKeys reg (visited ++ [p])).length <
      (unvisitedKeys reg visited).length := by
  apply length_filter_lt_of_witness (registryKeys reg) _ _ ?_ p ?_ ?_ ?_
  · intro a ha
    simp only [Bool.not_eq_true'] at ha ⊢
    simp only [Bool.eq_false_iff, ne_eq] at ha ⊢
    intro hc
    exact ha (by simpa using List.mem_append_left [p] (by simpa using hc))
  · exact List.mem_dedup.mpr hmem
  · simpa using hnv
  · simp

theorem resolveFuel_isSome (reg : Registry) :
    ∀ fuel visited p, (unvisitedKeys reg visited).length < fuel →
      (resolveFuel fuel p reg visited).isSome = true := by
  intro fuel
  induction fuel with
  | zero => intro _ _ h; omega
  | succ n ih =>
    intro visited p h
    rw [resolveFuel]
    by_cases hv : p ∈ visited
    · simp [hv]
    · simp only [hv, if_false]
      cases hr : regGet reg p with
      | none => simp
      | some tok =>
        have hdec := unvisitedKeys_decrease (regGet_mem hr) hv
        have hn : (unvisitedKeys reg (visited ++ [p])).length < n := by
          omega
        dsimp only
        rcases htv : tok.value with _ | b | q | s | l | l <;> try simp
        by_cases hrs : isRefString s = true
        · simp only [hrs, if_true]
          exact ih (visited ++ [p]) (extractReferencePath s) hn
        · simp [hrs]

theorem resolveFuel_mono (reg : Registry) :
    ∀ fuel fuel' visited p r, resolveFuel fuel p reg visited = some r →
      fuel ≤ fuel' → resolveFuel fuel' p reg visited = some r := by
  intro fuel
  induction fuel with
  | zero => intro _ _ _ _ h; simp [resolveFuel] at h
  | succ n ih =>
    intro fuel' visited p r h hle
    obtain ⟨m, rfl⟩ : ∃ m, fuel' = m + 1 := ⟨fuel' - 1, by omega⟩
    rw [resolveFuel] at h ⊢
    by_cases hv : p ∈ visited
    · simpa [hv] using h
    · simp only [hv, if_false] at h ⊢
      cases hr : regGet reg p with
      | none =>
          rw [hr] at h
          exact h
      | some tok =>
        rw [hr] at h
        dsimp only at h ⊢
        rcases htv : tok.value with _ | b | q | s | l | l <;> rw [htv] at h <;>
          try exact h
        by_cases hrs : isRefString s = true
        · simp only [hrs, if_true] at h ⊢
          exact ih m (visited ++ [p]) (extractReferencePath s) r h (by omega)
        · simpa [hrs] using h

theorem resolveFuel_agree (reg : Registry) (visited : List String)
    (p : String) {f1 f2 : Nat}
    (h1 : (unvisitedKeys reg visited).length < f1)
    (h2 : (unvisitedKeys reg visited).length < f2) :
    resolveFuel f1 p reg visited = resolveFuel f2 p reg visited := by
  obtain ⟨r1, hr1⟩ :=
    Option.isSome_iff_exists.mp (resolveFuel_isSome reg f1 visited p h1)
  obtain ⟨r2, hr2⟩ :=
    Option.isSome_iff_exists.mp (resolveFuel_isSome reg f2 visited p h2)
  have e1 := resolveFuel_mono reg f1 (max f1 f2) visited p r1 hr1
    (le_max_left _ _)
  have e2 := resolveFuel_mono reg f2 (max f1 f2) visited p r2 hr2
    (le_max_right _ _)
  rw [hr1, hr2]
  rw [e1] at e2
  exact e2

theorem resolveReference_eq_fuel (reg : Registry) (visited : List String)
    (p : String) {fuel : Nat}
    (h : (unvisitedKeys reg visited).length < fuel) :
    resolveFuel fuel p reg visited =
      some (resolveReference p reg visited) := by
  have hb : (unvisitedKeys reg visited).length < registrySize reg + 1 :=
    Nat.lt_succ_of_le (unvisitedKeys_le reg visited)
  rw [resolveFuel_agree reg visited p h hb]
  obtain ⟨r, hr⟩ :=
    Option.isSome_iff_exists.mp (resolveFuel_isSome reg _ visited p hb)
  rw [resolveReference, hr]
  rfl

/-- C9: one top-level resolution terminates within at most
`registrySize + 1` calls — i.e. at most `|registry|` recursive steps — for
*every* registry (including one built from a malformed document), every
starting path and every visited set, because each recursive step consumes a
previously-unvisited registry key; and any revisit of a path already in the
visited set returns the cycle error immediately (fuel `1`, i.e. with no
recursive step at all). -/
theorem resolution_terminates (reg : Registry) (p : String)
    (visited : List String) :
    (resolveFuel (registrySize reg + 1) p reg visited).isSome = true ∧
    (unvisitedKeys reg visited).length ≤ registrySize reg ∧
    (∀ q, q ∈ visited →
      resolveFuel 1 q reg visited = some (.err (cycleMessage visited q))) := by
  refine ⟨?_, unvisitedKeys_le reg visited, ?_⟩
  · exact resolveFuel_isSome reg _ visited p
      (Nat.lt_succ_of_le (unvisitedKeys_le reg visited))
  · intro q hq
    rw [resolveFuel]
    simp [hq]

/-- Witness for C9 on a concrete registry and visited set. -/
theorem resolution_terminates_witness :
    (resolveFuel
      (registrySize [("a", ⟨.str "{a}", none⟩)] + 1) "a"
      [("a", ⟨.str "{a}", none⟩)] []).isSome = true ∧
    resolveFuel 1 "x" [("a", ⟨.str "{a}", none⟩)] ["x"] =
      some (.err (cycleMessage ["x"] "x")) :=
  ⟨(resolution_terminates [("a", ⟨.str "{a}", none⟩)] "a" []).1,
   (resolution_terminates [("a", ⟨.str "{a}", none⟩)] "x" ["x"]).2.2 "x"
     (by simp)⟩

theorem refChainB_resolveFuel (reg : Registry) :
    ∀ ps p visited fuel, refChainB reg (p :: ps) = true →
      (p :: ps).Nodup → (∀ q ∈ p :: ps, q ∉ visited) →
      (unvisitedKeys reg visited).length < fuel →
      ∃ tok, regGet reg ((p :: ps).getLast (List.cons_ne_nil p ps)) =
          some tok ∧
        isReference tok.value = false ∧
        resolveFuel fuel p reg visited = some (.ok tok.value tok.type) := by
  intro ps
  induction ps with
  | nil =>
      intro p visited fuel hchain hnd hvis hfuel
      rw [refChainB] at hchain
      cases hr : regGet reg p with
      | none =>
          rw [hr] at hchain
          cases hchain
      | some tok =>
          rw [hr] at hchain
          dsimp only at hchain
          refine ⟨tok, by simpa using hr, by simpa using hchain, ?_⟩
          obtain ⟨n, rfl⟩ : ∃ n, fuel = n + 1 := ⟨fuel - 1, by omega⟩
          rw [resolveFuel, if_neg (hvis p (by simp)), hr]
          dsimp only
          rcases htv : tok.value with _ | b | q | s | l | l <;> try rfl
          have hs : isRefString s = false := by
            rw [htv] at hchain
            simpa [isReference] using hchain
          simp [hs]
  | cons q rest ih =>
      intro p visited fuel hchain hnd hvis hfuel
      rw [refChainB] at hchain
      rw [Bool.and_eq_true] at hchain
      obtain ⟨hstep, hrest⟩ := hchain
      cases hr : regGet reg p with
      | none =>
          rw [hr] at hstep
          cases hstep
      | some tok =>
          rw [hr] at hstep
          dsimp only at hstep
          rcases htv : tok.value with _ | b | q' | s | l | l <;>
            rw [htv] at hstep <;> try cases hstep
          rw [Bool.and_eq_true] at hstep
          obtain ⟨hrs, hext⟩ := hstep
          have hextq : extractReferencePath s = q := by
            simpa using hext
          have hp : p ∉ visited := hvis p (by simp)
          have hdec := unvisitedKeys_decrease (regGet_mem hr) hp
          obtain ⟨n, rfl⟩ : ∃ n, fuel = n + 1 := ⟨fuel - 1, by omega⟩
          have hvis' : ∀ x ∈ q :: rest, x ∉ visited ++ [p] := by
            intro x hx
            have hx1 : x ∉ visited := hvis x (List.mem_cons_of_mem _ hx)
            have hx2 : x ≠ p := by
              rintro rfl
              exact (List.nodup_cons.mp hnd).1 hx
            simp [hx1, hx2]
          obtain ⟨tok', hlast, hnr, hres⟩ :=
            ih q (visited ++ [p]) n hrest (List.Nodup.of_cons hnd) hvis'
              (by omega)
          refine ⟨tok', ?_, hnr, ?_⟩
          · rwa [List.getLast_cons (List.cons_ne_nil q rest)]
          · rw [resolveFuel, if_neg hp, hr]
            dsimp only
            rw [htv]
            simp only [hrs, if_true, hextq]
            exact hres

/-- C2: for a reference chain of depth ≥ 2 (head `$value` references `p₀`,
each chain token references the next, the leaf holds a concrete value),
resolution reaches the leaf token, and the head token is validated with the
leaf's value under the effective type `jsOrOpt (own $type) (leaf type)` —
the head's own declared `$type` when truthy, else the type resolved through
the chain; in particular, a head with no `$type` (and no ambient group
type, which `validateTokenValue` never consults) is validated under the
leaf token's type. -/
theorem reference_chain_type_inheritance (token : JValue)
    (s p₀ path : String) (ps : List String) (reg : Registry)
    (hval : getField token "$value" = some (.str s))
    (href : isRefString s = true)
    (hex : extractReferencePath s = p₀)
    (hchain : refChainB reg (p₀ :: ps) = true)
    (hnodup : (p₀ :: ps).Nodup)
    (_hdepth : ps ≠ []) :
    ∃ tok, regGet reg ((p₀ :: ps).getLast (List.cons_ne_nil p₀ ps)) =
        some tok ∧
      isReference tok.value = false ∧
      resolveReference p₀ reg = .ok tok.value tok.type ∧
      validateTokenValue token path reg =
        validateResolvedValue (jsOrOpt (getField token "$type") tok.type)
          tok.value path := by
  obtain ⟨tok, hlast, hnr, hres⟩ :=
    refChainB_resolveFuel reg ps p₀ [] (registrySize reg + 1) hchain hnodup
      (by simp) (Nat.lt_succ_of_le (unvisitedKeys_le reg []))
  have hrr : resolveReference p₀ reg = .ok tok.value tok.type := by
    rw [resolveReference, hres]
    rfl
  refine ⟨tok, hlast, hnr, hrr, ?_⟩
  simp [validateTokenValue, hval, hasField, href, hex, hrr]

/-- Witness for C2: in `docChain` (`a → b → c`, only `c` typed
`dimension`), the head token `a` validates cleanly as a dimension. -/
theorem reference_chain_type_inheritance_witness :
    validateTokenValue (.obj [("$value", .str "{b}")]) "a"
      (buildTokenRegistry docChain "" [] none) = ([], []) := by
  obtain ⟨tok, hlast, hnr, hrr, heq⟩ :=
    reference_chain_type_inheritance (.obj [("$value", .str "{b}")])
      "{b}" "b" "a" ["c"] (buildTokenRegistry docChain "" [] none)
      rfl (by decide) (by decide) (by decide) (by decide) (by simp)
  have hl : ((("b" : String) :: ["c"]).getLast
      (List.cons_ne_nil "b" ["c"])) = "c" := rfl
  rw [hl] at hlast
  have h2 : regGet (buildTokenRegistry docChain "" [] none) "c" =
      some ⟨.str "16px", some (.str "dimension")⟩ := rfl
  rw [h2] at hlast
  have htok : tok = ⟨.str "16px", some (.str "dimension")⟩ :=
    (Option.some.inj hlast).symm
  rw [heq, htok]
  rfl

theorem isPrefixOf_append_right {a c : List Char} (b : List Char)
    (h : a.isPrefixOf c = true) : a.isPrefixOf (c ++ b) = true := by
  rw [List.isPrefixOf_iff_prefix] at h ⊢
  exact h.trans (c.prefix_append b)

theorem containsSub_of_prefix {hay sub : String}
    (h : sub.data.isPrefixOf hay.data = true) : containsSub hay sub = true := by
  rw [containsSub]
  cases hd : hay.data with
  | nil =>
      rw [hd] at h
      rw [containsSub.go]
      exact h
  | cons c rest =>
      rw [hd] at h
      rw [containsSub.go]
      simp [h]

theorem containsSubGo_append (sub : String) (b : List Char) :
    ∀ a, containsSub.go sub a = true → containsSub.go sub (a ++ b) = true := by
  intro a
  induction a with
  | nil =>
      intro h
      rw [containsSub.go] at h
      have hnil : sub.data = [] := by
        cases hs : sub.data with
        | nil => rfl
        | cons x xs =>
            rw [hs] at h
            cases h
      rw [List.nil_append]
      cases b with
      | nil =>
          rw [containsSub.go, hnil]
          rfl
      | cons c rest =>
          rw [containsSub.go, hnil]
          simp [List.isPrefixOf]
  | cons c rest ih =>
      intro h
      rw [containsSub.go] at h
      rw [List.cons_append, containsSub.go]
      rw [Bool.or_eq_true] at h
      rcases h with h1 | h2
      · rw [← List.cons_append]
        rw [isPrefixOf_append_right b h1]
        rfl
      · rw [ih h2]
        simp

theorem containsSub_append (a b sub : String)
    (h : containsSub a sub = true) : containsSub (a ++ b) sub = true := by
  rw [containsSub] at h ⊢
  rw [String.data_append]
  exact containsSubGo_append sub b.data a.data h

theorem circular_prefix (r : List Char) :
    ("Circular reference".data).isPrefixOf
      ("Circular reference detected: ".data ++ r) = true := by
  have h1 : "Circular reference".data <+:
      "Circular reference detected: ".data := by
    rw [← List.isPrefixOf_iff_prefix]
    decide
  have h2 : "Circular reference".data <+:
      ("Circular reference detected: ".data ++ r) :=
    h1.trans (List.prefix_append _ _)
  rwa [List.isPrefixOf_iff_prefix]

theorem cycleMessage_contains (visited : List String) (p : String) :
    containsSub (cycleMessage visited p) "Circular reference" = true := by
  apply containsSub_of_prefix
  have hr : (cycleMessage visited p).data =
      "Circular reference detected: ".data ++
        (joinArrow visited ++ " → " ++ p).data := by
    simp [cycleMessage, String.data_append, List.append_assoc]
  rw [hr]
  exact circular_prefix _

theorem extractReferencePath_wrap (q : String) :
    extractReferencePath ("\x7b" ++ q ++ "\x7d") = q := by
  have hd : ("\x7b" ++ q ++ "\x7d").data = '{' :: (q.data ++ ['}']) := by
    simp [String.data_append]
  simp [extractReferencePath, hd, List.getLast?_concat, List.dropLast_concat]

theorem cycleSet_resolveFuel (reg : Registry) (S : List (String × String))
    (hS : isCycleSet reg S = true) :
    ∀ fuel visited p, p ∈ S.map Prod.fst →
      (unvisitedKeys reg visited).length < fuel →
      ∃ msg, resolveFuel fuel p reg visited = some (.err msg) ∧
        containsSub msg "Circular reference" = true := by
  rw [isCycleSet, Bool.and_eq_true] at hS
  obtain ⟨-, hall⟩ := hS
  rw [List.all_eq_true] at hall
  intro fuel
  induction fuel with
  | zero =>
      intro _ _ _ h
      omega
  | succ n ih =>
    intro visited p hp hfuel
    obtain ⟨pr, hprS, hpr1⟩ : ∃ pr ∈ S, pr.1 = p := by
      simpa using List.mem_map.mp hp
    have hcond := hall pr hprS
    rw [Bool.and_eq_true] at hcond
    obtain ⟨hmatch, hnext⟩ := hcond
    by_cases hv : p ∈ visited
    · exact ⟨cycleMessage visited p, by rw [resolveFuel, if_pos hv],
        cycleMessage_contains visited p⟩
    · rw [hpr1] at hmatch
      cases hr : regGet reg p with
      | none =>
          rw [hr] at hmatch
          cases hmatch
      | some tok =>
          rw [hr] at hmatch
          dsimp only at hmatch
          rcases htv : tok.value with _ | b | q' | s | l | l <;>
            rw [htv] at hmatch <;> try cases hmatch
          rw [Bool.and_eq_true] at hmatch
          obtain ⟨hrs, hext⟩ := hmatch
          have hextq : extractReferencePath s = pr.2 := by
            simpa using hext
          have hnext' : pr.2 ∈ S.map Prod.fst := by
            rw [List.any_eq_true] at hnext
            obtain ⟨e, heS, he⟩ := hnext
            simp only [decide_eq_true_eq] at he
            exact List.mem_map.mpr ⟨e, heS, he⟩
          have hdec := unvisitedKeys_decrease (regGet_mem hr) hv
          obtain ⟨msg, hmsg, hcont⟩ := ih (visited ++ [p]) pr.2 hnext'
            (by omega)
          refine ⟨msg, ?_, hcont⟩
          rw [resolveFuel, if_neg hv, hr]
          dsimp only
          rw [htv]
          simp only [hrs, if_true, hextq]
          exact hmsg

/-- `buildTokenRegistry` only appends to the registry accumulator. -/
theorem buildTokenRegistry_frame :
    (∀ v key path reg pt, buildTokenRegistry.goEntry key v path reg pt =
        reg ++ buildTokenRegistry.goEntry key v path [] pt) ∧
    (∀ l path reg pt, buildTokenRegistry.goF l path reg pt =
        reg ++ buildTokenRegistry.goF l path [] pt) ∧
    (∀ l i path reg pt, buildTokenRegistry.goE i l path reg pt =
        reg ++ buildTokenRegistry.goE i l path [] pt) := by
  obtain ⟨hP, hPF, hPE⟩ := jvalueInductionAll
    (fun v => ∀ key path reg pt,
      buildTokenRegistry.goEntry key v path reg pt =
        reg ++ buildTokenRegistry.goEntry key v path [] pt)
    (fun l => ∀ path reg pt, buildTokenRegistry.goF l path reg pt =
        reg ++ buildTokenRegistry.goF l path [] pt)
    (fun l => ∀ i path reg pt, buildTokenRegistry.goE i l path reg pt =
        reg ++ buildTokenRegistry.goE i l path [] pt)
    (by intro key path reg pt
        by_cases hk : keyStartsDollar key <;>
          simp [buildTokenRegistry.goEntry, hk])
    (by intro b key path reg pt
        by_cases hk : keyStartsDollar key <;>
          simp [buildTokenRegistry.goEntry, hk])
    (by intro q key path reg pt
        by_cases hk : keyStartsDollar key <;>
          simp [buildTokenRegistry.goEntry, hk])
    (by intro s key path reg pt
        by_cases hk : keyStartsDollar key <;>
          simp [buildTokenRegistry.goEntry, hk])
    (by intro l ih key path reg pt
        by_cases hk : keyStartsDollar key
        · simp [buildTokenRegistry.goEntry, hk]
        · simp only [buildTokenRegistry.goEntry, hk, Bool.false_eq_true,
            if_false]
          exact ih 0 (childPath path key) reg _)
    (by intro l ih key path reg pt
        by_cases hk : keyStartsDollar key
        · simp [buildTokenRegistry.goEntry, hk]
        · by_cases hv : hasField (.obj l) "$value" = true
          · simp [buildTokenRegistry.goEntry, hk, hv]
          · simp only [buildTokenRegistry.goEntry, hk, hv,
              Bool.false_eq_true, if_false]
            exact ih (childPath path key) reg _)
    (by intro path reg pt
        simp [buildTokenRegistry.goF])
    (by intro k v rest ihv ihrest path reg pt
        calc buildTokenRegistry.goF ((k, v) :: rest) path reg pt
            = buildTokenRegistry.goF rest path
                (buildTokenRegistry.goEntry k v path reg pt) pt := by
              rw [buildTokenRegistry.goF]
          _ = buildTokenRegistry.goEntry k v path reg pt ++
                buildTokenRegistry.goF rest path [] pt := ihrest path _ pt
          _ = (reg ++ buildTokenRegistry.goEntry k v path [] pt) ++
                buildTokenRegistry.goF rest path [] pt := by
              rw [← ihv]
          _ = reg ++ (buildTokenRegistry.goEntry k v path [] pt ++
                buildTokenRegistry.goF rest path [] pt) := by
              rw [List.append_assoc]
          _ = reg ++ buildTokenRegistry.goF rest path
                (buildTokenRegistry.goEntry k v path [] pt) pt := by
              rw [← ihrest path _ pt]
          _ = reg ++ buildTokenRegistry.goF ((k, v) :: rest) path [] pt := by
              rw [buildTokenRegistry.goF])
    (by intro i path reg pt
        simp [buildTokenRegistry.goE])
    (by intro v rest ihv ihrest i path reg pt
        calc buildTokenRegistry.goE i (v :: rest) path reg pt
            = buildTokenRegistry.goE (i + 1) rest path
                (buildTokenRegistry.goEntry (toString i) v path reg pt) pt := by
              rw [buildTokenRegistry.goE]
          _ = buildTokenRegistry.goEntry (toString i) v path reg pt ++
                buildTokenRegistry.goE (i + 1) rest path [] pt :=
              ihrest (i + 1) path _ pt
          _ = (reg ++ buildTokenRegistry.goEntry (toString i) v path [] pt) ++
                buildTokenRegistry.goE (i + 1) rest path [] pt := by
              rw [← ihv]
          _ = reg ++ (buildTokenRegistry.goEntry (toString i) v path [] pt ++
                buildTokenRegistry.goE (i + 1) rest path [] pt) := by
              rw [List.append_assoc]
          _ = reg ++ buildTokenRegistry.goE (i + 1) rest path
                (buildTokenRegistry.goEntry (toString i) v path [] pt) pt := by
              rw [← ihrest (i + 1) path _ pt]
          _ = reg ++ buildTokenRegistry.goE i (v :: rest) path [] pt := by
              rw [buildTokenRegistry.goE])
  exact ⟨hP, hPF, hPE⟩

theorem regGet_append (r1 r2 : Registry) (p : String) :
    regGet (r1 ++ r2) p =
      match regGet r2 p with
      | some t => some t
      | none => regGet r1 p := by
  induction r1 with
  | nil =>
      rw [List.nil_append]
      cases regGet r2 p <;> simp [regGet]
  | cons e rest ih =>
      obtain ⟨k, t⟩ := e
      rw [List.cons_append, regGet, ih, regGet]
      cases regGet r2 p <;> cases regGet rest p <;> rfl

/-- If every key of a field list is `$`-prefixed, the registry builder adds
nothing for it. -/
theorem buildGoF_all_dollar (l : List (String × JValue)) (path : String)
    (pt : Option JValue)
    (h : ∀ e ∈ l, keyStartsDollar e.1 = true) :
    buildTokenRegistry.goF l path [] pt = [] := by
  induction l with
  | nil => rw [buildTokenRegistry.goF]
  | cons e rest ih =>
      obtain ⟨k, v⟩ := e
      rw [buildTokenRegistry.goF]
      have hk : keyStartsDollar k = true := h (k, v) (by simp)
      have he : buildTokenRegistry.goEntry k v path [] pt = [] := by
        simp [buildTokenRegistry.goEntry, hk]
      rw [he]
      exact ih (fun e hme => h e (List.mem_cons_of_mem _ hme))

/-- A registry entry whose stored value is a failing reference contributes
the resolver's error (suffixed with its own path) to the walker's output:
the walker visits every node the registry builder recorded. -/
theorem registryToken_error_in_walk (reg : Registry) :
    ∀ v path ptB ptV p tok s e,
      regGet (buildTokenRegistry v path [] ptB) p = some tok →
      tok.value = .str s → isRefString s = true →
      resolveReference (extractReferencePath s) reg = .err e →
      (e ++ " at " ++ p) ∈ (validateToken v path reg ptV).1 := by
  have frameF := buildTokenRegistry_frame.2.1
  have main : ∀ w : JValue,
      ((∀ key path ptB ptV p tok s e,
        regGet (buildTokenRegistry.goEntry key w path [] ptB) p = some tok →
        tok.value = .str s → isRefString s = true →
        resolveReference (extractReferencePath s) reg = .err e →
        (e ++ " at " ++ p) ∈ (validateToken.goEntry key w path reg ptV).1) ∧
       (∀ path ptB ptV p tok s e,
        regGet (buildTokenRegistry w path [] ptB) p = some tok →
        tok.value = .str s → isRefString s = true →
        resolveReference (extractReferencePath s) reg = .err e →
        (e ++ " at " ++ p) ∈ (validateToken w path reg ptV).1)) := by
    refine jvalueInduction _
      (fun l => ∀ path ptB ptV p tok s e,
        regGet (buildTokenRegistry.goF l path [] ptB) p = some tok →
        tok.value = .str s → isRefString s = true →
        resolveReference (extractReferencePath s) reg = .err e →
        (e ++ " at " ++ p) ∈ (validateToken.goF l path reg ptV).1)
      (fun l => ∀ i path ptB ptV p tok s e,
        regGet (buildTokenRegistry.goE i l path [] ptB) p = some tok →
        tok.value = .str s → isRefString s = true →
        resolveReference (extractReferencePath s) reg = .err e →
        (e ++ " at " ++ p) ∈ (validateToken.goE i l path reg ptV).1)
      ?_ ?_ ?_ ?_ ?_ ?_ ?_ ?_ ?_ ?_
    · refine ⟨?_, ?_⟩
      · intro key path ptB ptV p tok s e hreg _ _ _
        by_cases hk : keyStartsDollar key <;>
          simp [buildTokenRegistry.goEntry, hk, regGet] at hreg
      · intro path ptB ptV p tok s e hreg _ _ _
        simp [buildTokenRegistry, regGet] at hreg
    · intro b
      refine ⟨?_, ?_⟩
      · intro key path ptB ptV p tok s e hreg _ _ _
        by_cases hk : keyStartsDollar key <;>
          simp [buildTokenRegistry.goEntry, hk, regGet] at hreg
      · intro path ptB ptV p tok s e hreg _ _ _
        simp [buildTokenRegistry, regGet] at hreg
    · intro q
      refine ⟨?_, ?_⟩
      · intro key path ptB ptV p tok s e hreg _ _ _
        by_cases hk : keyStartsDollar key <;>
          simp [buildTokenRegistry.goEntry, hk, regGet] at hreg
      · intro path ptB ptV p tok s e hreg _ _ _
        simp [buildTokenRegistry, regGet] at hreg
    · intro s0
      refine ⟨?_, ?_⟩
      · intro key path ptB ptV p tok s e hreg _ _ _
        by_cases hk : keyStartsDollar key <;>
          simp [buildTokenRegistry.goEntry, hk, regGet] at hreg
      · intro path ptB ptV p tok s e hreg _ _ _
        simp [buildTokenRegistry, regGet] at hreg
    · intro l ih
      refine ⟨?_, ?_⟩
      · intro key path ptB ptV p tok s e hreg htv hrs hres
        by_cases hk : keyStartsDollar key
        · simp [buildTokenRegistry.goEntry, hk, regGet] at hreg
        · simp only [buildTokenRegistry.goEntry, hk, Bool.false_eq_true,
            if_false] at hreg
          have hmem := ih 0 (childPath path key) _
            (jsOrOpt (getField (.arr l) "$type") ptV) p tok s e hreg htv
            hrs hres
          simp only [validateToken.goEntry, hk, Bool.false_eq_true,
            if_false, pairAppend]
          exact List.mem_append_right _ hmem
      · intro path ptB ptV p tok s e hreg htv hrs hres
        simp only [buildTokenRegistry] at hreg
        have hmem := ih 0 path ptB ptV p tok s e hreg htv hrs hres
        simpa [validateToken] using hmem
    · intro l ih
      refine ⟨?_, ?_⟩
      · intro key path ptB ptV p tok s e hreg htv hrs hres
        by_cases hk : keyStartsDollar key
        · simp [buildTokenRegistry.goEntry, hk, regGet] at hreg
        · by_cases hv : hasField (.obj l) "$value" = true
          · simp only [buildTokenRegistry.goEntry, hk, hv,
              Bool.false_eq_true, if_false, if_true,
              List.nil_append] at hreg
            rw [regGet] at hreg
            simp only [regGet] at hreg
            rw [Option.ite_none_right_eq_some, Option.some.injEq] at hreg
            obtain ⟨hcp, htok⟩ := hreg
            subst htok
            simp only [RegToken.value] at htv
            simp only [validateToken.goEntry, hk, hv, Bool.false_eq_true,
              if_false, if_true, pairAppend, validateTokenValue, htv, hrs,
              if_true, hres, hasField]
            rw [hcp]
            simp [hasField] at hv
            simp [hv, htv, hrs, hres]
          · simp only [buildTokenRegistry.goEntry, hk, hv,
              Bool.false_eq_true, if_false] at hreg
            by_cases hm : (hasField (.obj l) "$type" &&
                ((keysOf (.obj l)).filter
                  (fun x => !keyStartsDollar x)).isEmpty) = true
            · rw [Bool.and_eq_true] at hm
              obtain ⟨-, hempty⟩ := hm
              have halldollar : ∀ x ∈ l, keyStartsDollar x.1 = true := by
                intro x hx
                rw [List.isEmpty_iff] at hempty
                have := List.filter_eq_nil_iff.mp hempty x.1
                  (by simpa [keysOf] using List.mem_map_of_mem Prod.fst hx)
                simpa using this
              rw [buildGoF_all_dollar l _ _ halldollar] at hreg
              simp [regGet] at hreg
            · have hmem := ih (childPath path key) _
                (jsOrOpt (getField (.obj l) "$type") ptV) p tok s e hreg
                htv hrs hres
              simp only [validateToken.goEntry, hk, hv, hm,
                Bool.false_eq_true, if_false, pairAppend]
              exact List.mem_append_right _ hmem
      · intro path ptB ptV p tok s e hreg htv hrs hres
        simp only [buildTokenRegistry] at hreg
        have hmem := ih path ptB ptV p tok s e hreg htv hrs hres
        simpa [validateToken] using hmem
    · intro path ptB ptV p tok s e hreg _ _ _
      simp [buildTokenRegistry.goF, regGet] at hreg
    · intro k v rest ihv ihrest path ptB ptV p tok s e hreg htv hrs hres
      rw [buildTokenRegistry.goF, frameF rest path _ ptB, regGet_append]
        at hreg
      rw [validateToken.goF]
      cases hr2 : regGet (buildTokenRegistry.goF rest path [] ptB) p with
      | some t =>
          rw [hr2] at hreg
          dsimp only at hreg
          have hmem := ihrest path ptB ptV p tok s e (hr2.trans hreg) htv
            hrs hres
          simp only [pairAppend]
          exact List.mem_append_right _ hmem
      | none =>
          rw [hr2] at hreg
          dsimp only at hreg
          have hmem := ihv.1 k path ptB ptV p tok s e hreg htv hrs hres
          simp only [pairAppend]
          exact List.mem_append_left _ hmem
    · intro i path ptB ptV p tok s e hreg _ _ _
      simp [buildTokenRegistry.goE, regGet] at hreg
    · intro v rest ihv ihrest i path ptB ptV p tok s e hreg htv hrs hres
      rw [buildTokenRegistry.goE,
        buildTokenRegistry_frame.2.2 rest (i + 1) path _ ptB,
        regGet_append] at hreg
      rw [validateToken.goE]
      cases hr2 : regGet (buildTokenRegistry.goE (i + 1) rest path [] ptB)
          p with
      | some t =>
          rw [hr2] at hreg
          dsimp only at hreg
          have hmem := ihrest (i + 1) path ptB ptV p tok s e
            (hr2.trans hreg) htv hrs hres
          simp only [pairAppend]
          exact List.mem_append_right _ hmem
      | none =>
          rw [hr2] at hreg
          dsimp only at hreg
          have hmem := ihv.1 (toString i) path ptB ptV p tok s e hreg htv
            hrs hres
          simp only [pairAppend]
          exact List.mem_append_left _ hmem
  intro v path ptB ptV p tok s e hreg htv hrs hres
  exact (main v).2 path ptB ptV p tok s e hreg htv hrs hres

/-- C1: for every document whose registry contains a reference cycle,
validation returns `valid = false` with an error containing the literal
substring `"Circular reference"`; moreover the visited-set membership check
precedes the registry lookup — a path already in `visited` yields, for
*any* registry, the cycle error whose message enumerates the visited chain
in order followed by the offending path again — and a token whose value
references its own path is caught on the first recursive call with the
message `p → p`. -/
theorem circular_reference_invalidates (doc : JValue)
    (S : List (String × String))
    (hobj : isPlainObject doc = true)
    (hcyc : isCycleSet (buildTokenRegistry doc "" [] none) S = true) :
    ((validateTokensObject doc).valid = false ∧
     ∃ e ∈ (validateTokensObject doc).errors,
       containsSub e "Circular reference" = true) ∧
    (∀ (reg' : Registry) (visited : List String) (q : String) (fuel : Nat),
      q ∈ visited →
      resolveFuel (fuel + 1) q reg' visited =
        some (.err (cycleMessage visited q))) ∧
    (∀ (reg' : Registry) (q : String) (tok : RegToken),
      regGet reg' q = some tok →
      tok.value = .str ("\x7b" ++ q ++ "\x7d") →
      isRefString ("\x7b" ++ q ++ "\x7d") = true →
      resolveReference q reg' = .err (cycleMessage [q] q)) := by
  refine ⟨?_, ?_, ?_⟩
  · have hcyc' := hcyc
    rw [isCycleSet, Bool.and_eq_true] at hcyc'
    obtain ⟨hne, hall⟩ := hcyc'
    rw [List.all_eq_true] at hall
    obtain ⟨pr, hprS⟩ : ∃ pr, pr ∈ S := by
      cases S with
      | nil => simp at hne
      | cons a t => exact ⟨a, by simp⟩
    have hcond := hall pr hprS
    rw [Bool.and_eq_true] at hcond
    obtain ⟨hmatch, hnext⟩ := hcond
    cases hr : regGet (buildTokenRegistry doc "" [] none) pr.1 with
    | none =>
        rw [hr] at hmatch
        cases hmatch
    | some tok =>
      rw [hr] at hmatch
      dsimp only at hmatch
      rcases htv : tok.value with _ | b | q' | s | l | l <;>
        rw [htv] at hmatch <;> try cases hmatch
      rw [Bool.and_eq_true] at hmatch
      obtain ⟨hrs, hext⟩ := hmatch
      have hextq : extractReferencePath s = pr.2 := by
        simpa using hext
      have hmem2 : pr.2 ∈ S.map Prod.fst := by
        rw [List.any_eq_true] at hnext
        obtain ⟨x, hxS, hx⟩ := hnext
        simp only [decide_eq_true_eq] at hx
        exact List.mem_map.mpr ⟨x, hxS, hx⟩
      obtain ⟨msg, hmsg, hcont⟩ := cycleSet_resolveFuel _ S hcyc
        (registrySize (buildTokenRegistry doc "" [] none) + 1) [] pr.2 hmem2
        (Nat.lt_succ_of_le (unvisitedKeys_le _ []))
      have hresolve : resolveReference (extractReferencePath s)
          (buildTokenRegistry doc "" [] none) = .err msg := by
        rw [hextq]
        rw [resolveReference, hmsg]
        rfl
      have hmem := registryToken_error_in_walk
        (buildTokenRegistry doc "" [] none) doc "" none none pr.1 tok s msg
        hr htv hrs hresolve
      cases doc
      case obj fields =>
        have herr : (validateTokensObject (.obj fields)).errors =
            (validateToken (.obj fields) ""
              (buildTokenRegistry (.obj fields) "" [] none) none).1 := rfl
        refine ⟨?_, ⟨msg ++ " at " ++ pr.1, ?_, ?_⟩⟩
        · have hvv : (validateTokensObject (.obj fields)).valid =
              (validateToken (.obj fields) ""
                (buildTokenRegistry (.obj fields) "" [] none) none).1.isEmpty
                := rfl
          rw [hvv]
          cases hemp : (validateToken (.obj fields) ""
              (buildTokenRegistry (.obj fields) "" [] none) none).1 with
          | nil =>
              rw [hemp] at hmem
              cases hmem
          | cons x xs => rfl
        · rw [herr]
          exact hmem
        · exact containsSub_append (msg ++ " at ") pr.1 _
            (containsSub_append msg " at " _ hcont)
      all_goals simp [isPlainObject] at hobj
  · intro reg' visited q fuel hq
    rw [resolveFuel, if_pos hq]
  · intro reg' q tok hget htv hrs
    have hkeys : q ∈ reg'.map Prod.fst := regGet_mem hget
    have hsize : 1 ≤ registrySize reg' := by
      have hmemk : q ∈ registryKeys reg' := List.mem_dedup.mpr hkeys
      have h1 := List.length_pos.mpr (List.ne_nil_of_mem hmemk)
      have h2 : registrySize reg' = (registryKeys reg').length := rfl
      omega
    obtain ⟨m, hm⟩ : ∃ m, registrySize reg' = m + 1 :=
      ⟨registrySize reg' - 1, by omega⟩
    rw [resolveReference, hm, resolveFuel,
      if_neg (List.not_mem_nil q), hget]
    dsimp only
    rw [htv]
    dsimp only
    rw [if_pos hrs, extractReferencePath_wrap, resolveFuel,
      if_pos (by simp : q ∈ [] ++ [q])]
    simp

/-- Witness for C1: the two-token cycle `a ↔ b` invalidates the document
with an error containing "Circular reference", and the direct
self-reference of `docSelfRef` is caught on the first recursive call with
the message chain `a → a`. -/
theorem circular_reference_invalidates_witness :
    ((validateTokensObject docTwoCycle).valid = false ∧
     ∃ e ∈ (validateTokensObject docTwoCycle).errors,
       containsSub e "Circular reference" = true) ∧
    resolveReference "a" (buildTokenRegistry docSelfRef "" [] none) =
      .err (cycleMessage ["a"] "a") :=
  ⟨(circular_reference_invalidates docTwoCycle [("a", "b"), ("b", "a")]
      (by decide) (by decide)).1,
   (circular_reference_invalidates docTwoCycle [("a", "b"), ("b", "a")]
      (by decide) (by decide)).2.2
     (buildTokenRegistry docSelfRef "" [] none) "a"
     ⟨.str "{a}", some (.str "color")⟩ rfl rfl (by decide)⟩

/-- C8 (evaluating the code at the disputed inputs): the string `"{}"` does
not match the reference pattern, so a token with `$value: "{}"` is treated
as a plain literal — for a color token this yields a format *warning* and
the document stays valid, contradicting the claim (and the repository's own
test) that an empty reference body fails validation; a brace-containing
non-reference string such as `"{incomplete"` is likewise a literal and is
accepted for `fontFamily`. -/
theorem empty_reference_is_literal :
    isReference (.str "{}") = false ∧
    validateTokensObject docEmptyRef =
      ⟨true, [],
       some ["Color at color.broken should be in 6-digit hex format (#rrggbb) or a reference"],
       some 1⟩ ∧
    isReference (.str "\x7bincomplete") = false ∧
    validateTokensObject docIncompleteRef = ⟨true, [], some [], some 1⟩ := by
  decide

end DTCG
